import Mathlib

/-!
# kubectl-cilium: a shallow embedding of the two scanners

The repository has two scanners that share one shape:

* `internal/scanner`  (`scanner.Scanner`): runs two probes in every Cilium
  agent pod and files the pod under one of three groups;
* `internal/pressure` (`pressure.Scanner`): creates an inspector pod per node,
  probes every BPF map that exists on the node and records a per-node report.

Everything the Go code obtains from the cluster (node listing, pod creation,
readiness polling, the exec stream) is an input of the model: a `Cluster`
value holds the answers of the API server, and the scanner state records the
requests that were sent.  Go `int` is the 64-bit signed integer; `float64`
values are modelled exactly (sign, mantissa, binary exponent) with
round-to-nearest-even after every operation.
-/

deriving instance DecidableEq for Except

namespace Go

/-! ## float64 -/

/-- A `float64` value: not-a-number, an infinity, or the finite number
`(-1)^neg * m * 2^e`.  The finite constructor can also denote numbers that are
not representable; every operation below rounds its result to 53 significant
bits, so values built from the operations are representable.  The exponent
range is not modelled: it is never left by values computed from 64-bit
integers. -/
inductive Float64 where
  | nan : Float64
  | inf (neg : Bool) : Float64
  | fin (neg : Bool) (m : Nat) (e : Int) : Float64
  deriving Repr, DecidableEq

/-- Number of binary digits of `n`, counted with at most `fuel` halvings. -/
def bitLenAux : Nat → Nat → Nat
  | 0, _ => 0
  | fuel + 1, n => if n = 0 then 0 else bitLenAux fuel (n / 2) + 1

/-- Number of binary digits of `n` (`0` for `0`); `n` halvings always suffice. -/
def bitLen (n : Nat) : Nat := bitLenAux n n

/-- Round the natural number `m` to at most 53 significant bits, ties to even.
Returns the rounded mantissa and the number of low bits dropped. -/
def round53 (m : Nat) : Nat × Nat :=
  if bitLen m ≤ 53 then (m, 0)
  else
    let s := bitLen m - 53
    let q := m / 2 ^ s
    let r := m % 2 ^ s
    let half := 2 ^ (s - 1)
    if r > half ∨ (r = half ∧ q % 2 = 1) then (q + 1, s) else (q, s)

/-- The finite value `(-1)^neg * m * 2^e` rounded to `float64`. -/
def Float64.round (neg : Bool) (m : Nat) (e : Int) : Float64 :=
  let p := round53 m
  .fin neg p.1 (e + (p.2 : Int))

/-- Conversion `float64(i)` of an integer. -/
def Float64.ofInt (i : Int) : Float64 :=
  Float64.round (decide (i < 0)) i.natAbs 0

/-- The product `a * b` of two `float64` values. -/
def Float64.mul : Float64 → Float64 → Float64
  | .nan, _ => .nan
  | _, .nan => .nan
  | .inf s, .inf t => .inf (xor s t)
  | .inf s, .fin t m _ => if m = 0 then .nan else .inf (xor s t)
  | .fin s m _, .inf t => if m = 0 then .nan else .inf (xor s t)
  | .fin s m e, .fin t n f => Float64.round (xor s t) (m * n) (e + f)

/-- The quotient `a / b` of two `float64` values.  The quotient of the
mantissas is computed to at least 55 bits plus a sticky bit, then rounded. -/
def Float64.div : Float64 → Float64 → Float64
  | .nan, _ => .nan
  | _, .nan => .nan
  | .inf _, .inf _ => .nan
  | .inf s, .fin t _ _ => .inf (xor s t)
  | .fin s _ _, .inf t => .fin (xor s t) 0 0
  | .fin s m e, .fin t n f =>
    if n = 0 then (if m = 0 then .nan else .inf (xor s t))
    else if m = 0 then .fin (xor s t) 0 0
    else
      let k := bitLen n + 55 - bitLen m
      let q := (m * 2 ^ k) / n
      let sticky := if (m * 2 ^ k) % n = 0 then 0 else 1
      Float64.round (xor s t) (2 * q + sticky) (e - f - (k : Int) - 1)

/-- The comparison `a > b` of two `float64` values (false when either is NaN). -/
def Float64.gt : Float64 → Float64 → Bool
  | .nan, _ => false
  | _, .nan => false
  | .inf s, .inf t => !s && t
  | .inf s, .fin _ _ _ => !s
  | .fin _ _ _, .inf t => t
  | .fin s m e, .fin t n f =>
    let lo := min e f
    let a : Int := (if s then -1 else 1) * ((m * 2 ^ (e - lo).toNat : Nat) : Int)
    let b : Int := (if t then -1 else 1) * ((n * 2 ^ (f - lo).toNat : Nat) : Int)
    decide (a > b)

/-- The comparison `a >= b` of two `float64` values (false when either is NaN). -/
def Float64.ge : Float64 → Float64 → Bool
  | .nan, _ => false
  | _, .nan => false
  | a, b => !(Float64.gt b a)

/-- The rational number a finite `float64` value denotes (`0` for NaN and the
infinities).  Used to reason about comparisons. -/
def Float64.toRat : Float64 → ℚ
  | .fin s m e => (if s then -1 else 1) * (m : ℚ) * (2 : ℚ) ^ e
  | _ => 0

/-- Position of a `float64` value on the extended rational line (NaN, which is
not ordered, is put at the bottom).  Used to reason about comparisons. -/
def Float64.key : Float64 → WithBot (WithTop ℚ)
  | .nan => ⊥
  | .inf true => ⊥
  | .inf false => ((⊤ : WithTop ℚ) : WithBot (WithTop ℚ))
  | .fin s m e => (((Float64.toRat (.fin s m e) : ℚ) : WithTop ℚ) : WithBot (WithTop ℚ))

/-- Conversion `int(x)` of a `float64` to the 64-bit `int`: the fraction is
discarded (truncation towards zero).  For NaN, infinities and values outside
the `int` range the Go specification leaves the result to the implementation;
the value given here is the one amd64 produces. -/
def Float64.toInt : Float64 → Int
  | .nan => -(2 ^ 63)
  | .inf _ => -(2 ^ 63)
  | .fin s m e =>
    let a : Nat := if 0 ≤ e then m * 2 ^ e.toNat else m / 2 ^ (-e).toNat
    if a < 2 ^ 63 then (if s then -(a : Int) else (a : Int)) else -(2 ^ 63)

/-- The untyped constant `0.8` converted to `float64`: the nearest double is
`3602879701896397 * 2^-52`. -/
def const_0_8 : Float64 := .fin false 3602879701896397 (-52)

/-- The constant `100` as a `float64`. -/
def const_100 : Float64 := .fin false 100 0

/-! ## strings and strconv -/

/-- The characters `unicode.IsSpace` accepts. -/
def isSpace (c : Char) : Bool :=
  c = '\t' || c = '\n' || c.toNat = 0x0B || c.toNat = 0x0C || c = '\r' || c = ' ' ||
  c.toNat = 0x85 || c.toNat = 0xA0 || c.toNat = 0x1680 ||
  (0x2000 ≤ c.toNat && c.toNat ≤ 0x200A) ||
  c.toNat = 0x2028 || c.toNat = 0x2029 || c.toNat = 0x202F || c.toNat = 0x205F ||
  c.toNat = 0x3000

/-- Library function `strings.TrimSpace`: leading and trailing white space removed. -/
def trimSpace (s : String) : String :=
  String.mk ((s.toList.dropWhile isSpace).reverse.dropWhile isSpace).reverse

/-- Whether `sub` occurs in `s` at some position. -/
def containsChars (sub : List Char) : List Char → Bool
  | [] => sub.isEmpty
  | c :: cs => sub.isPrefixOf (c :: cs) || containsChars sub cs

/-- Library function `strings.Contains`. -/
def stringsContains (s sub : String) : Bool := containsChars sub.toList s.toList

/-- The digit of `n < 16` in lower-case hexadecimal. -/
def hexDigit (n : Nat) : Char := "0123456789abcdef".toList.getD n '0'

/-- How `strconv.Quote` writes one character: the double quote and the
backslash get a backslash, printable characters stand for themselves, the
seven named control characters are written with their letter, the other
ASCII control characters as two hexadecimal digits and the unprintable
Latin-1 characters as four.  Characters above U+00FF are taken as printable. -/
def quoteChar (c : Char) : List Char :=
  if c = '"' ∨ c = '\\' then ['\\', c]
  else if (0x20 ≤ c.toNat ∧ c.toNat < 0x7F) ∨ (0xA1 ≤ c.toNat ∧ c.toNat ≠ 0xAD) then [c]
  else if c.toNat = 0x07 then ['\\', 'a']
  else if c.toNat = 0x08 then ['\\', 'b']
  else if c.toNat = 0x0C then ['\\', 'f']
  else if c.toNat = 0x0A then ['\\', 'n']
  else if c.toNat = 0x0D then ['\\', 'r']
  else if c.toNat = 0x09 then ['\\', 't']
  else if c.toNat = 0x0B then ['\\', 'v']
  else if c.toNat < 0x20 ∨ c.toNat = 0x7F then
    ['\\', 'x', hexDigit (c.toNat / 16), hexDigit (c.toNat % 16)]
  else
    ['\\', 'u', hexDigit (c.toNat / 4096 % 16), hexDigit (c.toNat / 256 % 16),
      hexDigit (c.toNat / 16 % 16), hexDigit (c.toNat % 16)]

/-- Library function `strconv.Quote`: the text between double quotes, every
character written as `quoteChar` says.  Exact on every text whose characters
above U+00FF are printable. -/
def quote (s : String) : String :=
  String.mk ('"' :: s.toList.flatMap quoteChar ++ ['"'])

/-- Text of the `*strconv.NumError` that `Atoi` returns for a malformed input. -/
def atoiErrMalformed (s : String) : String :=
  "strconv.Atoi: parsing " ++ quote s ++ ": invalid syntax"

/-- Text of the `*strconv.NumError` that `Atoi` returns for a number that does
not fit the 64-bit `int`. -/
def atoiErrRange (s : String) : String :=
  "strconv.Atoi: parsing " ++ quote s ++ ": value out of range"

/-- Outcome of scanning the digits of a number. -/
inductive ScanResult where
  | value (n : Nat)
  | malformed
  | outOfRange
  deriving Repr, DecidableEq

/-- The digit loop of `strconv.ParseUint(s, 10, 64)`: a character that is not a
decimal digit is a syntax error, an accumulator that leaves the unsigned
64-bit range is a range error; the first of the two that is met wins. -/
def scanDigits : Nat → List Char → ScanResult
  | n, [] => .value n
  | n, c :: cs =>
    if c.isDigit then
      if n ≥ 2 ^ 64 / 10 + 1 then .outOfRange
      else if n * 10 + (c.toNat - 48) ≥ 2 ^ 64 then .outOfRange
      else scanDigits (n * 10 + (c.toNat - 48)) cs
    else .malformed

/-- Library function `strconv.Atoi` on a 64-bit platform: an optional sign
followed by one or more decimal digits, within the range of `int`.  The
result is the number or the text of the error. -/
def atoi (s : String) : Except String Int :=
  let (neg, digits) : Bool × List Char :=
    match s.toList with
    | '-' :: cs => (true, cs)
    | '+' :: cs => (false, cs)
    | cs => (false, cs)
  if digits.isEmpty then .error (atoiErrMalformed s)
  else
    match scanDigits 0 digits with
    | .malformed => .error (atoiErrMalformed s)
    | .outOfRange => .error (atoiErrRange s)
    | .value n =>
      if neg then
        if n > 2 ^ 63 then .error (atoiErrRange s) else .ok (-(n : Int))
      else
        if n ≥ 2 ^ 63 then .error (atoiErrRange s) else .ok (n : Int)

/-! ## maps

A Go map with string keys is modelled by the list of its entries, keys
distinct.  A `range` loop visits the entries in an order the language leaves
unspecified; in the model it is the order of the list. -/

/-- Map index expression `m[k]` with the comma-ok result. -/
def mapGet {β : Type} (m : List (String × β)) (k : String) : Option β :=
  match m with
  | [] => none
  | (k1, v1) :: rest => if k1 = k then some v1 else mapGet rest k

/-- Map assignment `m[k] = v`. -/
def mapSet {β : Type} (m : List (String × β)) (k : String) (v : β) : List (String × β) :=
  match m with
  | [] => [(k, v)]
  | (k1, v1) :: rest => if k1 = k then (k, v) :: rest else (k1, v1) :: mapSet rest k v

/-- Built-in `delete(m, k)`. -/
def mapDelete {β : Type} (m : List (String × β)) (k : String) : List (String × β) :=
  m.filter (fun kv => kv.1 ≠ k)

/-! ## sort -/

/-- Inner loop of the library insertion sort, on the already sorted prefix in
reverse order: the new element `x` moves left past every element it is `less`
than. -/
def insertBack {α : Type} (less : α → α → Bool) (x : α) : List α → List α
  | [] => [x]
  | p :: ps => if less x p then p :: insertBack less x ps else x :: p :: ps

/-- Library function `sort.Slice`, as the insertion sort the library runs on
slices of at most 12 elements.  On longer slices the library switches to a
pattern-defeating quicksort with the same contract: the result is a
rearrangement of the slice, ordered by `less` when `less` is a strict weak
ordering; only the order of elements that compare equal, which the library
leaves unspecified, can then differ from the one computed here. -/
def sortSlice {α : Type} (less : α → α → Bool) (xs : List α) : List α :=
  (xs.foldl (fun acc x => insertBack less x acc) []).reverse

end Go

/-! # Package `internal/scanner` -/

namespace scanner

open Go

/-- The fields of `corev1.Pod` that the scanner reads: `pod.Name` and
`pod.Spec.NodeName`. -/
structure Pod where
  Name : String
  NodeName : String
  deriving Repr, DecidableEq

/-- Go struct `NodeInfo`. -/
structure NodeInfo where
  NodeName : String
  PodName : String
  MaxCnt : Int
  CurrentCnt : Int
  Usage : Float64
  deriving Repr, DecidableEq

/-- Go struct `Scanner`: the three `nodeGroup` slices.  The client handles
`kc` and `restCfg` are the `Env` argument of the operations; the mutexes
guard single appends and are not modelled. -/
structure Scanner where
  warningNodes : List NodeInfo
  normalNodes : List NodeInfo
  unknownNodes : List NodeInfo
  deriving Repr, DecidableEq

/-- What the outside world answers to the scanner: `exec pod cmd` is the
outcome of running `cmd` in the `cilium-agent` container of `pod` (the
captured standard output, or the error of `NewSPDYExecutor` or
`StreamWithContext`), and `flushErr` is the error of writing the table to
standard output, if any. -/
structure Env where
  exec : String → List String → Except String String
  flushErr : Option String

/-- Go method `Scanner.execCmd`: the trimmed standard output, or the error. -/
def execCmd (env : Env) (pod : Pod) (cmd : List String) : Except String String :=
  match env.exec pod.Name cmd with
  | .error e => .error e
  | .ok stdout => .ok (trimSpace stdout)

/-- The capacity probe of `processPod`. -/
def maxCntCmd : List String :=
  ["sh", "-c", "bpftool map show pinned /sys/fs/bpf/tc/globals/cilium_snat_v4_external | grep -o 'max_entries [0-9]\\+' | awk '\x7bprint $2\x7d'"]

/-- The current-count probe of `processPod`. -/
def currentCntCmd : List String :=
  ["sh", "-c", "bpftool map dump pinned /sys/fs/bpf/tc/globals/cilium_snat_v4_external | grep elements | awk '\x7bprint $2\x7d'"]

/-- The row `processPod` files for a pod whose probes succeeded. -/
def measuredRow (pod : Pod) (maxCnt currentCnt : Int) : NodeInfo :=
  { NodeName := pod.NodeName
    PodName := pod.Name
    MaxCnt := maxCnt
    CurrentCnt := currentCnt
    Usage := Float64.mul (Float64.div (Float64.ofInt currentCnt) (Float64.ofInt maxCnt)) const_100 }

/-- The row the deferred function of `processPod` files: only the two names
are set, the other fields keep their zero value. -/
def unknownRow (pod : Pod) : NodeInfo :=
  { NodeName := pod.NodeName
    PodName := pod.Name
    MaxCnt := 0
    CurrentCnt := 0
    Usage := .fin false 0 0 }

/-- Body of Go method `Scanner.processPod` up to its `return` statements: the
value of the named result `err` and the scanner state. -/
def processPodBody (env : Env) (s : Scanner) (pod : Pod) : Option String × Scanner :=
  match execCmd env pod maxCntCmd with
  | .error e => (some e, s)
  | .ok result =>
    match atoi result with
    | .error e => (some e, s)
    | .ok maxCnt =>
      match execCmd env pod currentCntCmd with
      | .error e => (some e, s)
      | .ok result =>
        match atoi result with
        | .error e => (some e, s)
        | .ok currentCnt =>
          if currentCnt ≥ Float64.toInt (Float64.mul (Float64.ofInt maxCnt) const_0_8) then
            (none, { s with warningNodes := s.warningNodes ++ [measuredRow pod maxCnt currentCnt] })
          else
            (none, { s with normalNodes := s.normalNodes ++ [measuredRow pod maxCnt currentCnt] })

/-- Go method `Scanner.processPod`: the body, then the deferred function, which
appends to the unknown group when the result `err` is not nil. -/
def processPod (env : Env) (s : Scanner) (pod : Pod) : Option String × Scanner :=
  match processPodBody env s pod with
  | (some e, s1) => (some e, { s1 with unknownNodes := s1.unknownNodes ++ [unknownRow pod] })
  | (none, s1) => (none, s1)

/-- One line handed to the tab writer: the header, or a data row with its
status column. -/
inductive Line where
  | header
  | warning (n : NodeInfo)
  | ok (n : NodeInfo)
  | unknown (n : NodeInfo)
  deriving Repr, DecidableEq

/-- The comparison both `sort.Slice` calls of `print` pass: larger usage first. -/
def usageGreater (a b : NodeInfo) : Bool := Float64.gt a.Usage b.Usage

/-- Go method `Scanner.print`: sorts the warning and the normal group in place,
writes the header and the three groups, and flushes.  Returns the error, the
scanner state and the lines written. -/
def print (env : Env) (s : Scanner) : Option String × Scanner × List Line :=
  let s1 := { s with warningNodes := sortSlice usageGreater s.warningNodes }
  let s2 := { s1 with normalNodes := sortSlice usageGreater s1.normalNodes }
  let lines := [Line.header] ++ s2.warningNodes.map Line.warning ++
    s2.normalNodes.map Line.ok ++ s2.unknownNodes.map Line.unknown
  match env.flushErr with
  | some e => (some ("failed to flush tab writer: " ++ e), s2, lines)
  | none => (none, s2, lines)

end scanner

/-! # Package `internal/pressure` -/

namespace pressure

open Go

/-- Constant `globalsDir`. -/
def globalsDir : String := "/sys/fs/bpf/tc/globals"

/-- Constant `podNamePrefix`. -/
def podNamePrefix : String := "bpf-inspector"

/-- Constant `inspectNS`. -/
def inspectNS : String := "bpf-inspect"

/-- Variable `bpfMapNames`. -/
def bpfMapNames : List String :=
  ["cilium_ct4_global", "cilium_ct6_global", "cilium_ct_any4_global", "cilium_ct_any6_global",
   "cilium_nodeport_neigh4", "cilium_nodeport_neigh6", "cilium_snat_v4_external",
   "cilium_snat_v6_external"]

/-- Go type `bpfMapStatus` with its three constants. -/
inductive bpfMapStatus where
  | Unknown
  | OK
  | Warning
  deriving Repr, DecidableEq

/-- Go struct `bpfMap`. -/
structure bpfMap where
  name : String
  maxEntries : Int
  currentEntries : Int
  usage : Float64
  status : bpfMapStatus
  errMsg : String
  deriving Repr, DecidableEq

/-- Go struct `node`. -/
structure node where
  name : String
  bpfMaps : List (String × bpfMap)
  deriving Repr, DecidableEq

/-- The field of `corev1.Node` the scanner reads. -/
structure K8sNode where
  Name : String
  deriving Repr, DecidableEq

/-- The fields of `corev1.Pod` the scanner sets and reads: `Name`, `Namespace`
and `Spec.NodeName`. -/
structure Pod where
  Name : String
  Namespace : String
  NodeName : String
  deriving Repr, DecidableEq

/-- An error of an API request: its text and what `errors.IsAlreadyExists` and
`errors.IsNotFound` answer for it. -/
structure ApiError where
  msg : String
  alreadyExists : Bool
  notFound : Bool
  deriving Repr, DecidableEq

/-- A request the scanner sends through its client. -/
inductive ApiCall where
  | listNodes
  | createNamespace (name : String)
  | deleteNamespace (name : String)
  | createPod (name : String) (nodeName : String)
  | waitPodRunning (name : String)
  | deletePod (name : String)
  | waitPodsGone (ns : String)
  | exec (pod : String) (cmd : List String)
  deriving Repr, DecidableEq

/-- What the outside world answers to the scanner.  `waitRunning` and
`waitPodsGone` are the outcomes of the two polling loops
(`wait.PollUntilContextTimeout`), `exec pod cmd` is the outcome of running
`cmd` in the inspector container of `pod` (captured standard output, or the
error of `NewSPDYExecutor` or `StreamWithContext`), `flushErr` the error of
writing the table to standard output, if any. -/
structure Cluster where
  listNodes : Except String (List K8sNode)
  createNamespace : Option ApiError
  createPod : Pod → Except ApiError Pod
  waitRunning : String → Option String
  exec : String → List String → Except String String
  deletePod : String → Option ApiError
  waitPodsGone : Option String
  deleteNamespace : Option ApiError
  flushErr : Option String

/-- Go struct `Scanner`: the result map `nodes`, and the requests sent so far
through the client `kc`.  The mutex guards the single map assignment of
`inspectNode` and is not modelled. -/
structure Scanner where
  nodes : List (String × node)
  calls : List ApiCall
  deriving Repr, DecidableEq

/-- Result of a function that may fault at run time (nil pointer dereference):
it returns normally with a value, or panics; either way with the scanner
state it left behind. -/
inductive Outcome (α : Type) where
  | done (a : α) (s : Scanner)
  | panic (s : Scanner)
  deriving Repr, DecidableEq

/-- The entry `newNode` creates for a map name: `&bpfMap{name: mapName, status:
Unknown}`, the other fields at their zero value. -/
def unknownEntry (mapName : String) : bpfMap :=
  { name := mapName, maxEntries := 0, currentEntries := 0, usage := .fin false 0 0,
    status := .Unknown, errMsg := "" }

/-- Go function `newNode`. -/
def newNode (nodeName : String) : node :=
  bpfMapNames.foldl
    (fun n mapName => { n with bpfMaps := mapSet n.bpfMaps mapName (unknownEntry mapName) })
    { name := nodeName, bpfMaps := [] }

/-- Go method `Scanner.listNodes`. -/
def listNodes (c : Cluster) (s : Scanner) (targetNodeName : String) :
    Except String (List K8sNode) × Scanner :=
  let s1 := { s with calls := s.calls ++ [ApiCall.listNodes] }
  match c.listNodes with
  | .error e => (.error ("failed to list nodes: " ++ e), s1)
  | .ok items =>
    let items1 :=
      if targetNodeName ≠ "" then
        items.foldl (fun filteredNodes nd =>
          if nd.Name = targetNodeName then filteredNodes ++ [nd] else filteredNodes) []
      else items
    if items1.length = 0 then (.error "no nodes found", s1)
    else (.ok items1, s1)

/-- Go method `Scanner.ensureInspectNS`. -/
def ensureInspectNS (c : Cluster) (s : Scanner) : Option String × Scanner :=
  let s1 := { s with calls := s.calls ++ [ApiCall.createNamespace inspectNS] }
  match c.createNamespace with
  | some err =>
    if !err.alreadyExists then
      (some ("failed to create namespace " ++ inspectNS ++ ": " ++ err.msg), s1)
    else (none, s1)
  | none => (none, s1)

/-- Go method `Scanner.deleteInspectorNamespace`. -/
def deleteInspectorNamespace (c : Cluster) (s : Scanner) : Option String × Scanner :=
  let s1 := { s with calls := s.calls ++ [ApiCall.deleteNamespace inspectNS] }
  match c.deleteNamespace with
  | some err =>
    if !err.notFound then
      (some ("failed to delete namespace " ++ inspectNS ++ ": " ++ err.msg), s1)
    else (none, s1)
  | none => (none, s1)

/-- Go method `Scanner.deletePod`: the request is sent, its error is only
printed. -/
def deletePod (s : Scanner) (podName : String) : Scanner :=
  { s with calls := s.calls ++ [ApiCall.deletePod podName] }

/-- Go method `Scanner.execCmd`, called with a pod that is not nil: the
trimmed standard output, or the error. -/
def execCmd (c : Cluster) (s : Scanner) (pod : Pod) (cmd : List String) :
    Except String String × Scanner :=
  let s1 := { s with calls := s.calls ++ [ApiCall.exec pod.Name cmd] }
  match c.exec pod.Name cmd with
  | .error e => (.error e, s1)
  | .ok stdout => (.ok (trimSpace stdout), s1)

/-- The capacity probe of `getBpfMapStats`. -/
def maxEntriesCmd (mapName : String) : List String :=
  ["sh", "-c", "bpftool map show pinned " ++ globalsDir ++ "/" ++ mapName ++
    " | grep -o 'max_entries [0-9]\\+' | awk '\x7bprint $2\x7d'"]

/-- The current-count probe of `getBpfMapStats`. -/
def currentEntriesCmd (mapName : String) : List String :=
  ["sh", "-c", "bpftool map dump pinned " ++ globalsDir ++ "/" ++ mapName ++
    " | grep element | awk '\x7bprint $2\x7d'"]

/-- The existence probe of `existBpfMap`. -/
def existCmd (mapName : String) : List String :=
  ["sh", "-c", "[ -f " ++ globalsDir ++ "/" ++ mapName ++ " ]"]

/-- Go method `Scanner.getBpfMapStats`, called with a pod that is not nil. -/
def getBpfMapStats (c : Cluster) (s : Scanner) (pod : Pod) (mapName : String) :
    Except String bpfMap × Scanner :=
  match execCmd c s pod (maxEntriesCmd mapName) with
  | (.error e, s1) => (.error e, s1)
  | (.ok result, s1) =>
    match atoi result with
    | .error e => (.error e, s1)
    | .ok maxEntries =>
      match execCmd c s1 pod (currentEntriesCmd mapName) with
      | (.error e, s2) => (.error e, s2)
      | (.ok result, s2) =>
        match atoi result with
        | .error e => (.error e, s2)
        | .ok currentEntries =>
          let usage :=
            Float64.mul (Float64.div (Float64.ofInt currentEntries) (Float64.ofInt maxEntries))
              const_100
          let status :=
            if currentEntries ≥ Float64.toInt (Float64.mul (Float64.ofInt maxEntries) const_0_8)
            then bpfMapStatus.Warning else bpfMapStatus.OK
          (.ok { name := "", maxEntries := maxEntries, currentEntries := currentEntries,
                 usage := usage, status := status, errMsg := "" }, s2)

/-- Go method `Scanner.existBpfMap`, called with a pod that is not nil: the
pair of results `(bool, error)`. -/
def existBpfMap (c : Cluster) (s : Scanner) (pod : Pod) (mapName : String) :
    (Bool × Option String) × Scanner :=
  match execCmd c s pod (existCmd mapName) with
  | (.error e, s1) =>
    if !stringsContains e "exit code 1" then ((false, some e), s1)
    else ((false, none), s1)
  | (.ok _, s1) => ((true, none), s1)

/-- The loop of Go method `Scanner.filterExistingBpfMaps` over the given map
names.  `n.bpfMaps[mapName].errMsg = ...` dereferences the entry of the map:
a missing entry is a nil pointer and faults. -/
def filterMaps (c : Cluster) (pod : Pod) : List String → node → Scanner → Outcome node
  | [], n, s => .done n s
  | mapName :: rest, n, s =>
    match existBpfMap c s pod mapName with
    | ((_, some e), s1) =>
      match mapGet n.bpfMaps mapName with
      | none => .panic s1
      | some b =>
        filterMaps c pod rest
          { n with bpfMaps := mapSet n.bpfMaps mapName { b with errMsg := e } } s1
    | ((false, none), s1) =>
      filterMaps c pod rest { n with bpfMaps := mapDelete n.bpfMaps mapName } s1
    | ((true, none), s1) => filterMaps c pod rest n s1

/-- Go method `Scanner.filterExistingBpfMaps`. -/
def filterExistingBpfMaps (c : Cluster) (s : Scanner) (n : node) (pod : Pod) : Outcome node :=
  filterMaps c pod bpfMapNames n s

/-- Go method `Scanner.ensureInspectorPod`: the created pod, or (with a nil
pod) the error. -/
def ensureInspectorPod (c : Cluster) (s : Scanner) (nodeName : String) :
    Except String Pod × Scanner :=
  let podName := podNamePrefix ++ "-" ++ nodeName
  let inspectorPod : Pod := { Name := podName, Namespace := inspectNS, NodeName := nodeName }
  let s1 := { s with calls := s.calls ++ [ApiCall.createPod podName nodeName] }
  let created : Except String Pod :=
    match c.createPod inspectorPod with
    | .error err =>
      if !err.alreadyExists then .error ("failed to create inspector pod: " ++ err.msg)
      else .ok inspectorPod
    | .ok p => .ok p
  match created with
  | .error e => (.error e, s1)
  | .ok createdPod =>
    let s2 := { s1 with calls := s1.calls ++ [ApiCall.waitPodRunning createdPod.Name] }
    match c.waitRunning createdPod.Name with
    | some e => (.error ("failed to wait for inspector pod to be running: " ++ e), s2)
    | none => (.ok createdPod, s2)

/-- The `range n.bpfMaps` loop of Go method `Scanner.inspectNode` over the
given entries: a failed metric keeps its entry and gets the error text, a
measured one has its entry replaced. -/
def inspectMaps (c : Cluster) (pod : Pod) : List (String × bpfMap) → node → Scanner → node × Scanner
  | [], n, s => (n, s)
  | (mapName, b) :: rest, n, s =>
    match getBpfMapStats c s pod mapName with
    | (.error e, s1) =>
      inspectMaps c pod rest
        { n with bpfMaps := mapSet n.bpfMaps mapName { b with errMsg := e } } s1
    | (.ok bpfMapStats, s1) =>
      inspectMaps c pod rest { n with bpfMaps := mapSet n.bpfMaps mapName bpfMapStats } s1

/-- Go method `Scanner.inspectNode`.  The error of `ensureInspectorPod` is
only printed; the statement `defer s.deletePod(inspectorPod.Name)` then
evaluates `inspectorPod.Name`, which faults when the pod is nil.  Otherwise
the deferred `deletePod` runs when the function returns or panics. -/
def inspectNode (c : Cluster) (s : Scanner) (nd : K8sNode) : Outcome Unit :=
  match ensureInspectorPod c s nd.Name with
  | (.error _, s1) => .panic s1
  | (.ok inspectorPod, s1) =>
    let n := newNode nd.Name
    match filterExistingBpfMaps c s1 n inspectorPod with
    | .panic s2 => .panic (deletePod s2 inspectorPod.Name)
    | .done n1 s2 =>
      let (n2, s3) := inspectMaps c inspectorPod n1.bpfMaps n1 s2
      let s4 := { s3 with nodes := mapSet s3.nodes nd.Name n2 }
      .done () (deletePod s4 inspectorPod.Name)

/-- One line of output of `printResult`: the header, a row (the arguments of
its `Sprintf`), or the closing advice. -/
inductive Line where
  | header
  | unknown (nodeName mapName errMsg : String)
  | measured (status : bpfMapStatus) (nodeName mapName : String) (usage : Float64)
      (currentEntries maxEntries : Int)
  | advice
  deriving Repr, DecidableEq

/-- The local map `lines` of `printResult`, one slice per status. -/
structure Lines where
  unknown : List Line
  ok : List Line
  warning : List Line
  deriving Repr, DecidableEq

/-- The line `printResult` formats for one entry of a node. -/
def lineOf (nodeName mapName : String) (b : bpfMap) : Line :=
  if b.status = .Unknown then .unknown nodeName mapName b.errMsg
  else .measured b.status nodeName mapName b.usage b.currentEntries b.maxEntries

/-- The statement `lines[bpfMap.status] = append(lines[bpfMap.status], line)`. -/
def addLine (lines : Lines) (status : bpfMapStatus) (line : Line) : Lines :=
  match status with
  | .Unknown => { lines with unknown := lines.unknown ++ [line] }
  | .OK => { lines with ok := lines.ok ++ [line] }
  | .Warning => { lines with warning := lines.warning ++ [line] }

/-- The two nested `range` loops of `printResult`. -/
def organize (nodes : List (String × node)) : Lines :=
  nodes.foldl
    (fun lines entry =>
      entry.2.bpfMaps.foldl
        (fun lines kv => addLine lines kv.2.status (lineOf entry.1 kv.1 kv.2)) lines)
    { unknown := [], ok := [], warning := [] }

/-- Go method `Scanner.printResult`: the error, and the lines written. -/
def printResult (c : Cluster) (s : Scanner) : Option String × List Line :=
  let lines := organize s.nodes
  let table := [Line.header] ++ lines.warning ++ lines.ok ++ lines.unknown
  match c.flushErr with
  | some e => (some ("failed to flush tab writer: " ++ e), table)
  | none => (none, if lines.warning.length > 0 then table ++ [Line.advice] else table)

/-- Go method `Scanner.startShutdownHandler` from the point where
`<-sigCtx.Done()` returns. -/
def startShutdownHandler (c : Cluster) (s : Scanner) (nodes : List K8sNode) : Scanner :=
  let s1 := nodes.foldl (fun s nd => deletePod s (podNamePrefix ++ "-" ++ nd.Name)) s
  let s2 := { s1 with calls := s1.calls ++ [ApiCall.waitPodsGone inspectNS] }
  match c.waitPodsGone with
  | some _ => s2
  | none => (deleteInspectorNamespace c s2).2

/-- The tasks `Run` submits to the pool, run one after the other.  A task that
panics is recovered by the pool and the remaining tasks still run. -/
def runTasks (c : Cluster) (s : Scanner) (nodes : List K8sNode) : Scanner :=
  nodes.foldl
    (fun s nd =>
      match inspectNode c s nd with
      | .done _ s1 => s1
      | .panic s1 => s1)
    s

/-- Go method `Scanner.Run`, for an execution during which no interrupt signal
is delivered: the returned error, the scanner state and the lines printed.
The shutdown handler started as a goroutine blocks on the context until
`cancel()` is called at the end. -/
def Run (c : Cluster) (s : Scanner) (targetNodeName : String) :
    Option String × Scanner × List Line :=
  match listNodes c s targetNodeName with
  | (.error e, s1) => (some ("failed to get nodes: " ++ e), s1, [])
  | (.ok nodes, s1) =>
    match ensureInspectNS c s1 with
    | (some e, s2) => (some e, s2, [])
    | (none, s2) =>
      let s3 := runTasks c s2 nodes
      match printResult c s3 with
      | (some e, out) => (some ("failed to print results: " ++ e), s3, out)
      | (none, out) => (none, startShutdownHandler c s3 nodes, out)

/-- Whether a request is one that a pool task (`inspectNode`) sends: creating
the inspector pod, waiting for it, running a command in it, deleting it.  The
other requests are sent by `Run` itself or by the shutdown handler. -/
def taskCall : ApiCall → Bool
  | .createPod _ _ => true
  | .waitPodRunning _ => true
  | .deletePod _ => true
  | .exec _ _ => true
  | _ => false

/-- The state `s2` is `s` with only requests of pool tasks added to the log. -/
def TaskExtends (s s2 : Scanner) : Prop :=
  ∃ extra, s2.calls = s.calls ++ extra ∧ ∀ x ∈ extra, taskCall x = true

end pressure

/-! # Example inputs -/

namespace pressure

/-- A cluster with one node `n1` in which every request succeeds and commands
are answered by `exec`. -/
def clusterWith (exec : String → List String → Except String String) : Cluster :=
  { listNodes := .ok [{ Name := "n1" }], createNamespace := none, createPod := fun p => .ok p,
    waitRunning := fun _ => none, exec := exec, deletePod := fun _ => none,
    waitPodsGone := none, deleteNamespace := none, flushErr := none }

/-- The inspector pod of node `n1`. -/
def podN1 : Pod := { Name := "bpf-inspector-n1", Namespace := "bpf-inspect", NodeName := "n1" }

/-- A scanner that has not done anything yet. -/
def emptyScanner : Scanner := { nodes := [], calls := [] }

end pressure

namespace scanner

/-- An environment whose capacity probe prints `cap` and whose current-count
probe prints `cur`. -/
def envWith (cap cur : String) : Env :=
  { exec := fun _ cmd => if cmd = maxCntCmd then .ok cap else .ok cur, flushErr := none }

/-- A Cilium agent pod on node `n1`. -/
def agentPod : Pod := { Name := "cilium-abcde", NodeName := "n1" }

/-- A scanner that has not recorded anything yet. -/
def emptyScanner : Scanner := { warningNodes := [], normalNodes := [], unknownNodes := [] }

end scanner

/-! # Theorems -/

open Go

/-! ## float64 arithmetic of the warning threshold -/

/-- The digit count is exact when the fuel is sufficient. -/
theorem bitLenAux_spec (fuel : Nat) : ∀ n, n < 2 ^ fuel →
    n < 2 ^ bitLenAux fuel n ∧ (n ≠ 0 → 2 ^ (bitLenAux fuel n - 1) ≤ n) := by
  induction fuel with
  | zero =>
    intro n hn
    have : n = 0 := by simpa using hn
    subst this
    simp [bitLenAux]
  | succ k ih =>
    intro n hn
    unfold bitLenAux
    by_cases h0 : n = 0
    · subst h0; simp
    · have hlt : n / 2 < 2 ^ k := by
        rw [Nat.div_lt_iff_lt_mul (by norm_num)]
        rw [pow_succ] at hn
        exact hn
      obtain ⟨h1, h2⟩ := ih (n / 2) hlt
      simp only [h0, if_false, Nat.add_sub_cancel]
      constructor
      · rw [pow_succ]
        omega
      · intro _
        by_cases h3 : n / 2 = 0
        · have : bitLenAux k (n / 2) = 0 := by
            rw [h3]; cases k <;> simp [bitLenAux]
          rw [this]; simp; omega
        · have h4 := h2 h3
          have : bitLenAux k (n / 2) = (bitLenAux k (n / 2) - 1) + 1 := by
            have : bitLenAux k (n / 2) ≠ 0 := by
              intro h; rw [h] at h1; simp at h1; omega
            omega
          rw [this, pow_succ]
          omega

theorem bitLen_lt (n : Nat) : n < 2 ^ bitLen n :=
  (bitLenAux_spec n n (Nat.lt_two_pow n)).1

theorem bitLen_le_self (n : Nat) (h : n ≠ 0) : 2 ^ (bitLen n - 1) ≤ n :=
  (bitLenAux_spec n n (Nat.lt_two_pow n)).2 h

theorem bitLen_le_of_lt (n k : Nat) (h : n < 2 ^ k) : bitLen n ≤ k := by
  by_cases h0 : n = 0
  · subst h0; simp [bitLen, bitLenAux]
  · by_contra hk
    have h1 := bitLen_le_self n h0
    have : 2 ^ k ≤ 2 ^ (bitLen n - 1) := Nat.pow_le_pow_right (by norm_num) (by omega)
    omega

/-- Value of the 53-bit rounding: the mantissa kept is the quotient by the
dropped power of two, or one more. -/
theorem round53_cases (m : Nat) :
    (bitLen m ≤ 53 ∧ round53 m = (m, 0)) ∨
    (53 < bitLen m ∧ ((round53 m = (m / 2 ^ (bitLen m - 53), bitLen m - 53)) ∨
      round53 m = (m / 2 ^ (bitLen m - 53) + 1, bitLen m - 53))) := by
  unfold round53
  by_cases h : bitLen m ≤ 53
  · left; simp [h]
  · right
    refine ⟨by omega, ?_⟩
    simp only [h, if_false]
    split
    · right; rfl
    · left; rfl

theorem toInt_fin_pos (m : Nat) (e : Int) (t : Nat) (he : e = -(t : Int))
    (hlt : m / 2 ^ t < 2 ^ 63) :
    Float64.toInt (.fin false m e) = ((m / 2 ^ t : Nat) : Int) := by
  subst he
  unfold Float64.toInt
  by_cases ht : t = 0
  · subst ht
    simp at hlt ⊢
    exact hlt
  · have h1 : ¬ (0 ≤ -(t : Int)) := by omega
    have h2 : (- -(t : Int)).toNat = t := by simp
    simp only [h1, if_false, h2]
    rw [if_pos hlt]
    simp

theorem threshold_nat (C : Nat) (hC : C ≤ 2 ^ 49) :
    Float64.toInt (Float64.mul (Float64.ofInt (C : Int)) const_0_8) = ((4 * C / 5 : Nat) : Int) := by
  have hb : bitLen C ≤ 53 := bitLen_le_of_lt C 53 (by omega)
  have hr : round53 C = (C, 0) := by simp [round53, hb]
  have hof : Float64.ofInt (C : Int) = .fin false C 0 := by
    simp [Float64.ofInt, Float64.round, hr]
  rw [hof]
  simp only [const_0_8, Float64.mul, Float64.round, Bool.xor_false]
  set P := C * 3602879701896397 with hP
  have h5 : 5 * P = 4 * C * 2 ^ 52 + C := by rw [hP]; ring
  have hk1 : (4 * C / 5) * 2 ^ 52 ≤ P := by
    have := Nat.div_mul_le_self (4 * C) 5
    nlinarith
  have hk2 : ∀ T, T ≤ C → P + T < (4 * C / 5 + 1) * 2 ^ 52 := by
    intro T hT
    have := Nat.lt_div_mul_add (a := 4 * C) (b := 5) (by norm_num)
    nlinarith
  have hk3 : 4 * C / 5 < 2 ^ 63 := by omega
  rcases round53_cases P with ⟨_, h⟩ | ⟨hlt, h⟩
  · rw [h]
    have hdiv : P / 2 ^ 52 = 4 * C / 5 := by
      have := hk2 0 (by omega)
      apply Nat.div_eq_of_lt_le
      · rw [Nat.mul_comm] at hk1; linarith
      · linarith
    rw [toInt_fin_pos P _ 52 (by simp) (by rw [hdiv]; exact hk3), hdiv]
  · have hC0 : C ≠ 0 := by
      rintro rfl
      simp [hP, bitLen, bitLenAux] at hlt
    have hP0 : P ≠ 0 := by rw [hP]; positivity
    have hPlt : P < 2 ^ 101 := by
      have : P < 2 ^ 49 * 2 ^ 52 := by rw [hP]; nlinarith
      simpa [← pow_add] using this
    have hL : bitLen P ≤ 101 := bitLen_le_of_lt P 101 hPlt
    obtain ⟨s, hs⟩ : ∃ s, bitLen P - 53 = s := ⟨_, rfl⟩
    have hs48 : s ≤ 48 := by omega
    have hself := bitLen_le_self P hP0
    have hexp : bitLen P - 1 = s + 52 := by omega
    rw [hexp, pow_add] at hself
    have hT : 2 ^ s ≤ C := by
      by_contra hcon
      have : C * 2 ^ 52 < 2 ^ s * 2 ^ 52 := by
        apply Nat.mul_lt_mul_of_pos_right (by omega) (by positivity)
      have : P < C * 2 ^ 52 := by rw [hP]; nlinarith
      omega
    have hTU : 2 ^ s * 2 ^ (52 - s) = 2 ^ 52 := by
      rw [← pow_add]; congr 1; omega
    have hTpos : 0 < 2 ^ s := by positivity
    have hUpos : 0 < 2 ^ (52 - s) := by positivity
    have hq1 : (4 * C / 5) * 2 ^ (52 - s) ≤ P / 2 ^ s := by
      rw [Nat.le_div_iff_mul_le hTpos]
      calc (4 * C / 5) * 2 ^ (52 - s) * 2 ^ s = (4 * C / 5) * (2 ^ s * 2 ^ (52 - s)) := by ring
        _ = (4 * C / 5) * 2 ^ 52 := by rw [hTU]
        _ ≤ P := hk1
    have hq2 : P / 2 ^ s + 1 < (4 * C / 5 + 1) * 2 ^ (52 - s) := by
      have h1 : (P + 2 ^ s) / 2 ^ s = P / 2 ^ s + 1 := Nat.add_div_right P hTpos
      rw [← h1, Nat.div_lt_iff_lt_mul hTpos]
      calc P + 2 ^ s < (4 * C / 5 + 1) * 2 ^ 52 := hk2 _ hT
        _ = (4 * C / 5 + 1) * 2 ^ (52 - s) * 2 ^ s := by rw [← hTU]; ring
    have key : ∀ q, q = P / 2 ^ s ∨ q = P / 2 ^ s + 1 → q / 2 ^ (52 - s) = 4 * C / 5 := by
      intro q hq
      apply Nat.div_eq_of_lt_le
      · rcases hq with rfl | rfl <;> omega
      · rcases hq with rfl | rfl <;> omega
    rw [hs] at h
    rcases h with h | h
    · rw [h]
      have hd := key (P / 2 ^ s) (Or.inl rfl)
      rw [toInt_fin_pos _ _ (52 - s) (by simp; omega) (by rw [hd]; exact hk3), hd]
    · rw [h]
      have hd := key (P / 2 ^ s + 1) (Or.inr rfl)
      rw [toInt_fin_pos _ _ (52 - s) (by simp; omega) (by rw [hd]; exact hk3), hd]

theorem threshold_int (C : Int) (h0 : 0 ≤ C) (hC : C ≤ 2 ^ 49) :
    Float64.toInt (Float64.mul (Float64.ofInt C) const_0_8) = 4 * C / 5 := by
  obtain ⟨n, rfl⟩ := Int.eq_ofNat_of_zero_le h0
  rw [threshold_nat n (by exact_mod_cast hC)]
  norm_cast

/-- Rounding a positive mantissa never gives zero. -/
theorem round53_ne_zero (m : Nat) (h : m ≠ 0) : (round53 m).1 ≠ 0 := by
  rcases round53_cases m with ⟨_, h1⟩ | ⟨hlt, h1 | h1⟩
  · rw [h1]; exact h
  · rw [h1]
    simp only
    have h2 := bitLen_le_self m h
    have h3 : 2 ^ (bitLen m - 53) ≤ 2 ^ (bitLen m - 1) :=
      Nat.pow_le_pow_right (by norm_num) (by omega)
    have : 0 < m / 2 ^ (bitLen m - 53) :=
      Nat.div_pos (le_trans h3 h2) (by positivity)
    omega
  · rw [h1]; simp

/-- With capacity 0 the usage is not a number: NaN for a zero count, an
infinity otherwise. -/
theorem usage_of_zero_capacity (N : Int) :
    Float64.mul (Float64.div (Float64.ofInt N) (Float64.ofInt 0)) const_100 =
      if N = 0 then Float64.nan else Float64.inf (decide (N < 0)) := by
  have h0 : Float64.ofInt 0 = .fin false 0 0 := by decide
  rw [h0]
  unfold Float64.ofInt Float64.round
  simp only [Float64.div, if_true]
  by_cases hN : N = 0
  · subst hN
    have : (round53 0).1 = 0 := by decide
    simp [this, Float64.mul]
  · have hne : (round53 N.natAbs).1 ≠ 0 := round53_ne_zero _ (by simpa using hN)
    simp [hne, hN, Float64.mul, const_100]

/-- The warning threshold of capacity 0 is 0. -/
theorem threshold_zero : Float64.toInt (Float64.mul (Float64.ofInt 0) const_0_8) = 0 := by
  decide

/-! ## C1: the warning threshold -/

/-- C1, as stated, fails: with capacity 4 and current count 3 the ratio is
0.75, below 0.8, yet `getBpfMapStats` reports status Warning and `processPod`
files the pod in the warning group. -/
theorem C1_counterexample_three_of_four :
    (∃ b s1,
      pressure.getBpfMapStats
        (pressure.clusterWith fun _ cmd =>
          if cmd = pressure.maxEntriesCmd "cilium_ct4_global" then .ok "4\n" else .ok "3\n")
        pressure.emptyScanner pressure.podN1
        "cilium_ct4_global" = (.ok b, s1) ∧
      b.maxEntries = 4 ∧ b.currentEntries = 3 ∧ b.status = pressure.bpfMapStatus.Warning) ∧
    (scanner.processPod
        (scanner.envWith "4\n" "3\n") scanner.emptyScanner scanner.agentPod).2.warningNodes.map
      (fun r => (r.MaxCnt, r.CurrentCnt)) = [(4, 3)] ∧
    ¬ ((3 : ℚ) / 4 ≥ 8 / 10) := by
  refine ⟨⟨_, _, rfl, ?_, ?_, ?_⟩, ?_, ?_⟩
  · decide
  · decide
  · decide
  · decide
  · norm_num

/-- C1 (amended): for every capacity `0 < C ≤ 2^49` and every current count `N`
that the probes return, the status computed by `getBpfMapStats` and the group
chosen by `processPod` is Warning if and only if `N` reaches the threshold
`0.8 * C` truncated to an integer, `⌊4C/5⌋`, and OK otherwise.  So a ratio of
at least 0.8 always gives Warning. -/
theorem C1_warning_iff_truncated_threshold
    (c : pressure.Cluster) (s : pressure.Scanner) (pod : pressure.Pod) (mapName : String)
    (env : scanner.Env) (t : scanner.Scanner) (p : scanner.Pod)
    (o1 o2 o3 o4 : String) (C N : Int) (hC : 0 < C) (hC49 : C ≤ 2 ^ 49)
    (h1 : c.exec pod.Name (pressure.maxEntriesCmd mapName) = .ok o1)
    (h2 : c.exec pod.Name (pressure.currentEntriesCmd mapName) = .ok o2)
    (h3 : env.exec p.Name scanner.maxCntCmd = .ok o3)
    (h4 : env.exec p.Name scanner.currentCntCmd = .ok o4)
    (hp1 : atoi (trimSpace o1) = .ok C) (hp2 : atoi (trimSpace o2) = .ok N)
    (hp3 : atoi (trimSpace o3) = .ok C) (hp4 : atoi (trimSpace o4) = .ok N) :
    (∃ b s1, pressure.getBpfMapStats c s pod mapName = (.ok b, s1) ∧
      b.maxEntries = C ∧ b.currentEntries = N ∧
      (b.status = pressure.bpfMapStatus.Warning ↔ 4 * C / 5 ≤ N) ∧
      (b.status = pressure.bpfMapStatus.OK ↔ N < 4 * C / 5) ∧
      (4 * C ≤ 5 * N → b.status = pressure.bpfMapStatus.Warning)) ∧
    (4 * C / 5 ≤ N → scanner.processPod env t p =
      (none, { t with warningNodes := t.warningNodes ++ [scanner.measuredRow p C N] })) ∧
    (N < 4 * C / 5 → scanner.processPod env t p =
      (none, { t with normalNodes := t.normalNodes ++ [scanner.measuredRow p C N] })) := by
  have hth := threshold_int C (le_of_lt hC) hC49
  refine ⟨?_, ?_, ?_⟩
  · simp only [pressure.getBpfMapStats, pressure.execCmd, h1, h2, hp1, hp2, hth]
    refine ⟨_, _, rfl, rfl, rfl, ?_, ?_, ?_⟩
    · by_cases h : 4 * C / 5 ≤ N <;> simp [h]
    · by_cases h : 4 * C / 5 ≤ N <;> simp [h]
      omega
    · intro h
      have : 4 * C / 5 ≤ N := by omega
      simp [this]
  · intro h
    simp [scanner.processPod, scanner.processPodBody, scanner.execCmd, h3, h4, hp3, hp4, hth, h]
  · intro h
    have h' : ¬ (4 * C / 5 ≤ N) := by omega
    simp [scanner.processPod, scanner.processPodBody, scanner.execCmd, h3, h4, hp3, hp4, hth, h']

/-- Witness of C1 (amended) at capacity 1000 and current count 820. -/
theorem C1_warning_iff_truncated_threshold_witness :
    (∃ b s1,
      pressure.getBpfMapStats
        (pressure.clusterWith fun _ cmd =>
          if cmd = pressure.maxEntriesCmd "cilium_ct4_global" then .ok "1000\n" else .ok "820\n")
        pressure.emptyScanner pressure.podN1 "cilium_ct4_global" = (.ok b, s1) ∧
      b.maxEntries = 1000 ∧ b.currentEntries = 820 ∧
      (b.status = pressure.bpfMapStatus.Warning ↔ 4 * 1000 / 5 ≤ (820 : Int)) ∧
      (b.status = pressure.bpfMapStatus.OK ↔ (820 : Int) < 4 * 1000 / 5) ∧
      (4 * 1000 ≤ 5 * (820 : Int) → b.status = pressure.bpfMapStatus.Warning)) ∧
    (4 * 1000 / 5 ≤ (820 : Int) →
      scanner.processPod (scanner.envWith "1000\n" "820\n") scanner.emptyScanner
          scanner.agentPod =
        (none, { scanner.emptyScanner with
          warningNodes :=
            scanner.emptyScanner.warningNodes ++ [scanner.measuredRow scanner.agentPod 1000 820] })) ∧
    ((820 : Int) < 4 * 1000 / 5 →
      scanner.processPod (scanner.envWith "1000\n" "820\n") scanner.emptyScanner
          scanner.agentPod =
        (none, { scanner.emptyScanner with
          normalNodes :=
            scanner.emptyScanner.normalNodes ++ [scanner.measuredRow scanner.agentPod 1000 820] })) :=
  C1_warning_iff_truncated_threshold
    (pressure.clusterWith fun _ cmd =>
      if cmd = pressure.maxEntriesCmd "cilium_ct4_global" then .ok "1000\n" else .ok "820\n")
    pressure.emptyScanner pressure.podN1 "cilium_ct4_global"
    (scanner.envWith "1000\n" "820\n") scanner.emptyScanner scanner.agentPod
    "1000\n" "820\n" "1000\n" "820\n" 1000 820 (by decide) (by decide)
    (by decide) (by decide) (by decide) (by decide) (by decide) (by decide) (by decide) (by decide)

/-! ## Go maps -/

theorem mapGet_mapSet {β : Type} (m : List (String × β)) (k : String) (v : β) (k' : String) :
    mapGet (mapSet m k v) k' = if k = k' then some v else mapGet m k' := by
  induction m with
  | nil => simp [mapSet, mapGet]
  | cons hd tl ih =>
    obtain ⟨k1, v1⟩ := hd
    by_cases h1 : k1 = k
    · subst h1
      by_cases h2 : k1 = k' <;> simp [mapSet, mapGet, h2]
    · by_cases h2 : k1 = k'
      · subst h2
        have : ¬ k = k1 := fun h => h1 h.symm
        simp [mapSet, mapGet, h1, this]
      · simp [mapSet, mapGet, h1, h2, ih]

theorem mapGet_mapDelete {β : Type} (m : List (String × β)) (k k' : String) :
    mapGet (mapDelete m k) k' = if k = k' then none else mapGet m k' := by
  induction m with
  | nil => simp [mapDelete, mapGet]
  | cons hd tl ih =>
    obtain ⟨k1, v1⟩ := hd
    simp only [mapDelete, ne_eq, decide_not] at ih ⊢
    by_cases h1 : k1 = k
    · subst h1
      by_cases h2 : k1 = k'
      · subst h2
        simpa [List.filter] using ih
      · simp [List.filter, mapGet, h2, ih]
    · by_cases h2 : k1 = k'
      · subst h2
        have : ¬ k = k1 := fun h => h1 h.symm
        simp [List.filter, mapGet, h1, this]
      · simp [List.filter, mapGet, h1, h2, ih]

theorem keys_mapSet {β : Type} (m : List (String × β)) (k : String) (v : β) :
    (mapSet m k v).map Prod.fst =
      if k ∈ m.map Prod.fst then m.map Prod.fst else m.map Prod.fst ++ [k] := by
  induction m with
  | nil => simp [mapSet]
  | cons hd tl ih =>
    obtain ⟨k1, v1⟩ := hd
    by_cases h1 : k1 = k
    · subst h1; simp [mapSet]
    · have h1' : ¬ k = k1 := fun h => h1 h.symm
      simp only [mapSet, h1, if_false, List.map_cons, ih, List.mem_cons, h1', false_or]
      split <;> simp

theorem nodup_keys_mapSet {β : Type} (m : List (String × β)) (k : String) (v : β)
    (h : (m.map Prod.fst).Nodup) : ((mapSet m k v).map Prod.fst).Nodup := by
  rw [keys_mapSet]
  split
  · exact h
  · rename_i hk
    rw [List.nodup_append]
    refine ⟨h, by simp, ?_⟩
    simp [List.Disjoint]
    intro a b hab hka
    exact hk (List.mem_map.2 ⟨(a, b), hab, hka.symm ▸ rfl⟩) 

theorem nodup_keys_mapDelete {β : Type} (m : List (String × β)) (k : String)
    (h : (m.map Prod.fst).Nodup) : ((mapDelete m k).map Prod.fst).Nodup := by
  unfold mapDelete
  exact (List.Sublist.map _ (List.filter_sublist _)).nodup h

theorem mapGet_eq_none_of_not_mem {β : Type} (m : List (String × β)) (k : String)
    (h : k ∉ m.map Prod.fst) : mapGet m k = none := by
  induction m with
  | nil => simp [mapGet]
  | cons hd tl ih =>
    obtain ⟨k1, v1⟩ := hd
    simp only [List.map_cons, List.mem_cons, not_or] at h
    have : ¬ k1 = k := fun e => h.1 e.symm
    simp [mapGet, this, ih h.2]

theorem mapGet_map_mk {β : Type} (ns : List String) (f : String → β) (k : String) :
    mapGet (ns.map fun m => (m, f m)) k = if k ∈ ns then some (f k) else none := by
  induction ns with
  | nil => simp [mapGet]
  | cons a tl ih =>
    by_cases h : a = k
    · subst h; simp [mapGet]
    · have : ¬ k = a := fun e => h e.symm
      simp [mapGet, h, ih, this]

/-! ## The per-node report of the pressure scanner -/

namespace pressure

theorem execCmd_fst (c : Cluster) (s s' : Scanner) (pod : Pod) (cmd : List String) :
    (execCmd c s pod cmd).1 = (execCmd c s' pod cmd).1 := by
  unfold execCmd
  cases c.exec pod.Name cmd <;> rfl

theorem execCmd_nodes (c : Cluster) (s : Scanner) (pod : Pod) (cmd : List String) :
    (execCmd c s pod cmd).2.nodes = s.nodes := by
  unfold execCmd
  cases c.exec pod.Name cmd <;> rfl

theorem existBpfMap_fst (c : Cluster) (s s' : Scanner) (pod : Pod) (m : String) :
    (existBpfMap c s pod m).1 = (existBpfMap c s' pod m).1 := by
  unfold existBpfMap execCmd
  cases c.exec pod.Name (existCmd m) with
  | error e => by_cases h : stringsContains e "exit code 1" <;> simp [h]
  | ok o => rfl

theorem existBpfMap_nodes (c : Cluster) (s : Scanner) (pod : Pod) (m : String) :
    (existBpfMap c s pod m).2.nodes = s.nodes := by
  unfold existBpfMap execCmd
  cases c.exec pod.Name (existCmd m) with
  | error e => by_cases h : stringsContains e "exit code 1" <;> simp [h]
  | ok o => rfl

theorem getBpfMapStats_fst (c : Cluster) (s s' : Scanner) (pod : Pod) (m : String) :
    (getBpfMapStats c s pod m).1 = (getBpfMapStats c s' pod m).1 := by
  unfold getBpfMapStats execCmd
  cases c.exec pod.Name (maxEntriesCmd m) with
  | error e => rfl
  | ok o =>
    simp only
    cases atoi (trimSpace o) with
    | error e => rfl
    | ok a =>
      simp only
      cases c.exec pod.Name (currentEntriesCmd m) with
      | error e => rfl
      | ok o2 =>
        simp only
        cases atoi (trimSpace o2) <;> rfl

theorem getBpfMapStats_nodes (c : Cluster) (s : Scanner) (pod : Pod) (m : String) :
    (getBpfMapStats c s pod m).2.nodes = s.nodes := by
  unfold getBpfMapStats execCmd
  cases c.exec pod.Name (maxEntriesCmd m) with
  | error e => rfl
  | ok o =>
    simp only
    cases atoi (trimSpace o) with
    | error e => rfl
    | ok a =>
      simp only
      cases c.exec pod.Name (currentEntriesCmd m) with
      | error e => rfl
      | ok o2 =>
        simp only
        cases atoi (trimSpace o2) <;> rfl

theorem newNode_eq (nodeName : String) :
    newNode nodeName =
      { name := nodeName, bpfMaps := bpfMapNames.map fun m => (m, unknownEntry m) } := by
  simp [newNode, bpfMapNames, mapSet]

theorem bpfMapNames_nodup : bpfMapNames.Nodup := by decide

theorem filterMaps_spec (c : Cluster) (pod : Pod) (s0 : Scanner) :
    ∀ (ns : List String) (n : node) (s : Scanner), ns.Nodup →
      (∀ m ∈ ns, (mapGet n.bpfMaps m).isSome) → (n.bpfMaps.map Prod.fst).Nodup →
      ∃ n' s', filterMaps c pod ns n s = .done n' s' ∧ n'.name = n.name ∧
        s'.nodes = s.nodes ∧ (n'.bpfMaps.map Prod.fst).Nodup ∧
        ∀ m, mapGet n'.bpfMaps m =
          if m ∈ ns then
            (match (existBpfMap c s0 pod m).1 with
              | (_, some e) => (mapGet n.bpfMaps m).map fun b => { b with errMsg := e }
              | (false, none) => none
              | (true, none) => mapGet n.bpfMaps m)
          else mapGet n.bpfMaps m := by
  intro ns
  induction ns with
  | nil =>
    intro n s _ _ hnd
    exact ⟨n, s, rfl, rfl, rfl, hnd, by simp⟩
  | cons k rest ih =>
    intro n s hns hpres hnd
    have hk : k ∉ rest := (List.nodup_cons.1 hns).1
    have hrest : rest.Nodup := (List.nodup_cons.1 hns).2
    have hfst := existBpfMap_fst c s s0 pod k
    have hnodes := existBpfMap_nodes c s pod k
    rcases hx : existBpfMap c s pod k with ⟨⟨b, eo⟩, s1⟩
    rw [hx] at hfst hnodes
    simp only at hfst hnodes
    have hkpres := hpres k (List.mem_cons_self _ _)
    obtain ⟨bk, hbk⟩ := Option.isSome_iff_exists.1 hkpres
    -- the node after the step on `k`
    have step : ∀ (n1 : node), n1.name = n.name → (n1.bpfMaps.map Prod.fst).Nodup →
        (∀ m, mapGet n1.bpfMaps m = if k = m then
            (match (existBpfMap c s0 pod k).1 with
              | (_, some e) => (mapGet n.bpfMaps k).map fun b => { b with errMsg := e }
              | (false, none) => none
              | (true, none) => mapGet n.bpfMaps k)
          else mapGet n.bpfMaps m) →
        ∃ n' s', filterMaps c pod rest n1 s1 = .done n' s' ∧ n'.name = n.name ∧
          s'.nodes = s.nodes ∧ (n'.bpfMaps.map Prod.fst).Nodup ∧
          ∀ m, mapGet n'.bpfMaps m =
            if m ∈ k :: rest then
              (match (existBpfMap c s0 pod m).1 with
                | (_, some e) => (mapGet n.bpfMaps m).map fun b => { b with errMsg := e }
                | (false, none) => none
                | (true, none) => mapGet n.bpfMaps m)
            else mapGet n.bpfMaps m := by
      intro n1 hname hnd1 hget
      have hpres1 : ∀ m ∈ rest, (mapGet n1.bpfMaps m).isSome := by
        intro m hm
        have hne : ¬ k = m := fun e => hk (e ▸ hm)
        rw [hget m, if_neg hne]
        exact hpres m (List.mem_cons_of_mem _ hm)
      obtain ⟨n', s', h1, h2, h3, h4, h5⟩ := ih n1 s1 hrest hpres1 hnd1
      refine ⟨n', s', h1, h2.trans hname, h3.trans hnodes, h4, ?_⟩
      intro m
      rw [h5 m]
      by_cases hm : m ∈ rest
      · have hne : ¬ k = m := fun e => hk (e ▸ hm)
        have hne' : m ≠ k := fun e => hne e.symm
        simp only [hm, if_true, List.mem_cons, or_true, hget m, if_neg hne]
      · by_cases hkm : k = m
        · subst hkm
          simp [hm, hget k]
        · have hne' : ¬ m = k := fun e => hkm e.symm
          simp [hm, hget m, hkm, hne']
    unfold filterMaps
    rw [hx]
    cases eo with
    | some e =>
      simp only [hbk]
      apply step
      · rfl
      · exact nodup_keys_mapSet _ _ _ hnd
      · intro m
        rw [mapGet_mapSet, ← hfst]
        simp [hbk]
    | none =>
      cases b with
      | false =>
        simp only
        apply step
        · rfl
        · exact nodup_keys_mapDelete _ _ hnd
        · intro m
          rw [mapGet_mapDelete, ← hfst]
      | true =>
        simp only
        apply step
        · rfl
        · exact hnd
        · intro m
          rw [← hfst]
          by_cases hkm : k = m
          · subst hkm; simp
          · simp [hkm]

theorem inspectMaps_spec (c : Cluster) (pod : Pod) (s0 : Scanner) :
    ∀ (es : List (String × bpfMap)) (n : node) (s : Scanner), (es.map Prod.fst).Nodup →
      (inspectMaps c pod es n s).1.name = n.name ∧
      (inspectMaps c pod es n s).2.nodes = s.nodes ∧
      ∀ m, mapGet (inspectMaps c pod es n s).1.bpfMaps m =
        match mapGet es m with
        | some b =>
          some (match (getBpfMapStats c s0 pod m).1 with
            | .ok st => st
            | .error e => { b with errMsg := e })
        | none => mapGet n.bpfMaps m := by
  intro es
  induction es with
  | nil =>
    intro n s _
    simp [inspectMaps, mapGet]
  | cons hd tl ih =>
    intro n s hnd
    obtain ⟨k, b⟩ := hd
    simp only [List.map_cons, List.nodup_cons] at hnd
    obtain ⟨hk, htl⟩ := hnd
    have hfst := getBpfMapStats_fst c s s0 pod k
    have hnodes := getBpfMapStats_nodes c s pod k
    rcases hx : getBpfMapStats c s pod k with ⟨r, s1⟩
    rw [hx] at hfst hnodes
    simp only at hfst hnodes
    have hnone : mapGet tl k = none := mapGet_eq_none_of_not_mem tl k hk
    unfold inspectMaps
    rw [hx]
    cases r with
    | error e =>
      simp only
      obtain ⟨h1, h2, h3⟩ :=
        ih { n with bpfMaps := mapSet n.bpfMaps k { b with errMsg := e } } s1 htl
      refine ⟨h1, h2.trans hnodes, ?_⟩
      intro m
      rw [h3 m]
      by_cases hkm : k = m
      · subst hkm
        simp [mapGet, hnone, mapGet_mapSet, ← hfst]
      · simp [mapGet, hkm, mapGet_mapSet]
    | ok st =>
      simp only
      obtain ⟨h1, h2, h3⟩ := ih { n with bpfMaps := mapSet n.bpfMaps k st } s1 htl
      refine ⟨h1, h2.trans hnodes, ?_⟩
      intro m
      rw [h3 m]
      by_cases hkm : k = m
      · subst hkm
        simp [mapGet, hnone, mapGet_mapSet, ← hfst]
      · simp [mapGet, hkm, mapGet_mapSet]

theorem ensureInspectorPod_nodes (c : Cluster) (s : Scanner) (nodeName : String) :
    (ensureInspectorPod c s nodeName).2.nodes = s.nodes := by
  unfold ensureInspectorPod
  simp only
  cases c.createPod _ with
  | error err =>
    by_cases h : err.alreadyExists
    · simp only [h, Bool.not_true, Bool.false_eq_true, if_false]
      cases c.waitRunning _ <;> rfl
    · simp [h]
  | ok p =>
    simp only
    cases c.waitRunning _ <;> rfl

/-- Report of a node whose inspector pod is available. -/
theorem inspectNode_spec (c : Cluster) (s s0 : Scanner) (nd : K8sNode) (pod : Pod) (s1 : Scanner)
    (h : ensureInspectorPod c s nd.Name = (.ok pod, s1)) :
    ∃ s2 n, inspectNode c s nd = .done () s2 ∧ mapGet s2.nodes nd.Name = some n ∧
      n.name = nd.Name ∧ (∀ k, k ≠ nd.Name → mapGet s2.nodes k = mapGet s.nodes k) ∧
      ∀ m, mapGet n.bpfMaps m =
        if m ∈ bpfMapNames then
          (match (existBpfMap c s0 pod m).1 with
            | (false, none) => none
            | _ =>
              some (match (getBpfMapStats c s0 pod m).1 with
                | .ok st => st
                | .error e => { unknownEntry m with errMsg := e }))
        else none := by
  have hs1 : s1.nodes = s.nodes := by
    have := ensureInspectorPod_nodes c s nd.Name
    rw [h] at this; exact this
  have hnew := newNode_eq nd.Name
  have hget0 : ∀ m, mapGet (newNode nd.Name).bpfMaps m =
      if m ∈ bpfMapNames then some (unknownEntry m) else none := by
    intro m; rw [hnew]; exact mapGet_map_mk _ _ _
  have hnd0 : ((newNode nd.Name).bpfMaps.map Prod.fst).Nodup := by
    rw [hnew]
    simp only [List.map_map]
    have : (Prod.fst ∘ fun m => (m, unknownEntry m)) = id := by funext m; rfl
    rw [this, List.map_id]
    exact bpfMapNames_nodup
  obtain ⟨n1, s2, hf1, hf2, hf3, hf4, hf5⟩ :=
    filterMaps_spec c pod s0 bpfMapNames (newNode nd.Name) s1 bpfMapNames_nodup
      (by intro m hm; rw [hget0 m, if_pos hm]; rfl) hnd0
  obtain ⟨hi1, hi2, hi3⟩ := inspectMaps_spec c pod s0 n1.bpfMaps n1 s2 hf4
  rcases hx : inspectMaps c pod n1.bpfMaps n1 s2 with ⟨n2, s3⟩
  rw [hx] at hi1 hi2 hi3
  simp only at hi1 hi2 hi3
  unfold inspectNode
  rw [h]
  simp only [filterExistingBpfMaps, hf1, hx]
  refine ⟨_, n2, rfl, ?_, ?_, ?_, ?_⟩
  · simp [deletePod, mapGet_mapSet]
  · rw [hi1, hf2, hnew]
  · intro k hk
    have : ¬ nd.Name = k := fun e => hk e.symm
    simp [deletePod, mapGet_mapSet, this, hi2, hf3, hs1]
  · intro m
    rw [hi3 m, hf5 m, hget0 m]
    by_cases hm : m ∈ bpfMapNames
    · simp only [hm, if_true]
      rcases hx : (existBpfMap c s0 pod m).1 with ⟨b, eo⟩
      cases eo with
      | some e => simp only [Option.map_some']
      | none => cases b <;> simp only
    · simp [hm]

end pressure

theorem mapGet_isSome_iff {β : Type} (m : List (String × β)) (k : String) :
    (mapGet m k).isSome ↔ k ∈ m.map Prod.fst := by
  induction m with
  | nil => simp [mapGet]
  | cons hd tl ih =>
    obtain ⟨k1, v1⟩ := hd
    by_cases h : k1 = k
    · subst h; simp [mapGet]
    · have : ¬ k = k1 := fun e => h e.symm
      simp only [mapGet, h, if_false, ih, List.map_cons, List.mem_cons, this, false_or]

namespace pressure

/-- General form of the fault behind C2. -/
theorem inspectNode_panics_of_nil_pod (c : Cluster) (s : Scanner) (nd : K8sNode) (e : String)
    (s1 : Scanner) (h : ensureInspectorPod c s nd.Name = (.error e, s1)) :
    inspectNode c s nd = .panic s1 ∧ s1.nodes = s.nodes := by
  constructor
  · unfold inspectNode; rw [h]
  · have := ensureInspectorPod_nodes c s nd.Name
    rw [h] at this; exact this

end pressure

section PressureReport

open pressure

/-! ## C2: a node whose inspector pod could not be made ready -/

/-- C2, evaluated on the code: when `ensureInspectorPod` fails (here: the
readiness poll times out, or the creation is refused), `inspectNode` faults
on the nil pod and the node is not recorded in the result map. -/
theorem C2_inspectNode_faults_when_pod_is_nil :
    (ensureInspectorPod
        { clusterWith (fun _ _ => .ok "") with
          waitRunning := fun _ => some "context deadline exceeded" }
        emptyScanner "n1").1 =
      .error "failed to wait for inspector pod to be running: context deadline exceeded" ∧
    inspectNode
        { clusterWith (fun _ _ => .ok "") with
          waitRunning := fun _ => some "context deadline exceeded" }
        emptyScanner { Name := "n1" } =
      .panic { nodes := [],
               calls := [.createPod "bpf-inspector-n1" "n1", .waitPodRunning "bpf-inspector-n1"] } ∧
    inspectNode
        { clusterWith (fun _ _ => .ok "") with
          createPod := fun _ =>
            .error { msg := "pods is forbidden", alreadyExists := false, notFound := false } }
        emptyScanner { Name := "n1" } =
      .panic { nodes := [], calls := [.createPod "bpf-inspector-n1" "n1"] } := by
  refine ⟨?_, ?_, ?_⟩ <;> decide

/-! ## C3: the existence check -/

/-- C3, evaluated on the code: for a command that exits with code 127
`existBpfMap` returns `(false, nil)`, the same as for exit code 1, because the
text `exit code 127` contains `exit code 1`; exit code 2 is returned as an
error. -/
theorem C3_existBpfMap_takes_exit_127_for_absent :
    (existBpfMap (clusterWith fun _ _ => .error "command terminated with exit code 127")
        emptyScanner podN1 "cilium_ct4_global").1 = (false, none) ∧
    (existBpfMap (clusterWith fun _ _ => .error "command terminated with exit code 1")
        emptyScanner podN1 "cilium_ct4_global").1 = (false, none) ∧
    (existBpfMap (clusterWith fun _ _ => .error "command terminated with exit code 2")
        emptyScanner podN1 "cilium_ct4_global").1 =
      (false, some "command terminated with exit code 2") := by
  refine ⟨?_, ?_, ?_⟩ <;> decide

/-! ## C4: maps that do not exist on the node -/

/-- C4: for every node whose inspector pod is available and every name in
`bpfMapNames`, a map the existence check reports absent has no entry in the
report `inspectNode` records for the node, and a map it reports present has
one. -/
theorem C4_absent_maps_have_no_entry (c : Cluster) (s s0 : Scanner) (nd : K8sNode) (pod : Pod)
    (s1 : Scanner) (h : ensureInspectorPod c s nd.Name = (.ok pod, s1)) :
    ∃ s2 n, inspectNode c s nd = .done () s2 ∧ mapGet s2.nodes nd.Name = some n ∧
      ∀ m ∈ bpfMapNames,
        ((existBpfMap c s0 pod m).1 = (false, none) → m ∉ n.bpfMaps.map Prod.fst) ∧
        ((existBpfMap c s0 pod m).1 = (true, none) → m ∈ n.bpfMaps.map Prod.fst) := by
  obtain ⟨s2, n, h1, h2, _, _, h5⟩ := inspectNode_spec c s s0 nd pod s1 h
  refine ⟨s2, n, h1, h2, ?_⟩
  intro m hm
  have hg := h5 m
  rw [if_pos hm] at hg
  constructor
  · intro he
    rw [he] at hg
    simp only at hg
    rw [← mapGet_isSome_iff, hg]
    simp
  · intro he
    rw [he] at hg
    simp only at hg
    rw [← mapGet_isSome_iff, hg]
    simp

/-- Witness of C4: a node on which only `cilium_ct6_global` is absent. -/
theorem C4_absent_maps_have_no_entry_witness :
    ∃ s2 n,
      inspectNode
        (clusterWith fun _ cmd =>
          if cmd = existCmd "cilium_ct6_global" then .error "command terminated with exit code 1"
          else .ok "10")
        emptyScanner { Name := "n1" } = .done () s2 ∧
      mapGet s2.nodes "n1" = some n ∧
      ∀ m ∈ bpfMapNames,
        ((existBpfMap
            (clusterWith fun _ cmd =>
              if cmd = existCmd "cilium_ct6_global" then
                .error "command terminated with exit code 1"
              else .ok "10")
            emptyScanner podN1 m).1 = (false, none) → m ∉ n.bpfMaps.map Prod.fst) ∧
        ((existBpfMap
            (clusterWith fun _ cmd =>
              if cmd = existCmd "cilium_ct6_global" then
                .error "command terminated with exit code 1"
              else .ok "10")
            emptyScanner podN1 m).1 = (true, none) → m ∈ n.bpfMaps.map Prod.fst) :=
  C4_absent_maps_have_no_entry
    (clusterWith fun _ cmd =>
      if cmd = existCmd "cilium_ct6_global" then .error "command terminated with exit code 1"
      else .ok "10")
    emptyScanner emptyScanner { Name := "n1" } podN1
    { nodes := [],
      calls := [.createPod "bpf-inspector-n1" "n1", .waitPodRunning "bpf-inspector-n1"] }
    (by decide)

namespace pressure

/-- The only errors `Run` returns are those of node discovery, of ensuring
the namespace and of the table writer. -/
theorem Run_error_sources (c : Cluster) (s : Scanner) (target err : String)
    (h : (Run c s target).1 = some err) :
    (∃ e, (listNodes c s target).1 = .error e ∧ err = "failed to get nodes: " ++ e) ∨
    (∃ ae, c.createNamespace = some ae ∧ ae.alreadyExists = false ∧
      err = "failed to create namespace " ++ inspectNS ++ ": " ++ ae.msg) ∨
    (∃ fe, c.flushErr = some fe ∧
      err = "failed to print results: " ++ ("failed to flush tab writer: " ++ fe)) := by
  unfold Run at h
  rcases hl : listNodes c s target with ⟨r, s1⟩
  rw [hl] at h
  cases r with
  | error e =>
    left
    simp only [Option.some.injEq] at h
    exact ⟨e, rfl, h.symm⟩
  | ok nodes =>
    right
    simp only at h
    unfold ensureInspectNS at h
    cases hns : c.createNamespace with
    | some ae =>
      rw [hns] at h
      by_cases hae : ae.alreadyExists = true
      · right
        simp only [hae, Bool.not_true, Bool.false_eq_true, if_false] at h
        unfold printResult at h
        cases hf : c.flushErr with
        | some fe =>
          rw [hf] at h
          simp only [Option.some.injEq] at h
          exact ⟨fe, rfl, h.symm⟩
        | none =>
          rw [hf] at h
          simp at h
      · left
        simp only [hae, Bool.not_false, if_true, Option.some.injEq] at h
        simp only [Bool.not_eq_true] at hae
        exact ⟨ae, rfl, hae, h.symm⟩
    | none =>
      right
      rw [hns] at h
      simp only at h
      unfold printResult at h
      cases hf : c.flushErr with
      | some fe =>
        rw [hf] at h
        simp only [Option.some.injEq] at h
        exact ⟨fe, rfl, h.symm⟩
      | none =>
        rw [hf] at h
        simp at h

end pressure

/-! ## C5: probe output that is not an integer -/

/-- C5: for every applicable metric `m` of a node, if the capacity or the
current-count probe output does not parse as an integer, `inspectNode` returns
normally and records the node; in its report `m` has status Unknown and
`errMsg` equal to the parse error text, every other applicable metric that was
measured has its measured entry, and any error `Run` returns is one of the
three run-level errors (node discovery, namespace, table writer). -/
theorem C5_parse_failure_is_recorded_as_unknown (c : Cluster) (s s0 : Scanner) (nd : K8sNode)
    (pod : Pod) (s1 : Scanner) (m e : String)
    (h : ensureInspectorPod c s nd.Name = (.ok pod, s1))
    (hm : m ∈ bpfMapNames)
    (happ : (existBpfMap c s0 pod m).1 ≠ (false, none))
    (hparse :
      (∃ o1, c.exec pod.Name (maxEntriesCmd m) = .ok o1 ∧ atoi (trimSpace o1) = .error e) ∨
      (∃ o1 C o2, c.exec pod.Name (maxEntriesCmd m) = .ok o1 ∧ atoi (trimSpace o1) = .ok C ∧
        c.exec pod.Name (currentEntriesCmd m) = .ok o2 ∧ atoi (trimSpace o2) = .error e)) :
    ∃ s2 n b, inspectNode c s nd = .done () s2 ∧ mapGet s2.nodes nd.Name = some n ∧
      mapGet n.bpfMaps m = some b ∧ b.status = bpfMapStatus.Unknown ∧ b.errMsg = e ∧
      (∀ m2 ∈ bpfMapNames, (existBpfMap c s0 pod m2).1 ≠ (false, none) →
        ∀ st, (getBpfMapStats c s0 pod m2).1 = .ok st → mapGet n.bpfMaps m2 = some st) ∧
      (∀ target err, (Run c s target).1 = some err →
        (∃ e1, (listNodes c s target).1 = .error e1 ∧ err = "failed to get nodes: " ++ e1) ∨
        (∃ ae, c.createNamespace = some ae ∧ ae.alreadyExists = false ∧
          err = "failed to create namespace " ++ inspectNS ++ ": " ++ ae.msg) ∨
        (∃ fe, c.flushErr = some fe ∧
          err = "failed to print results: " ++ ("failed to flush tab writer: " ++ fe))) := by
  obtain ⟨s2, n, h1, h2, _, _, h5⟩ := inspectNode_spec c s s0 nd pod s1 h
  have hstats : (getBpfMapStats c s0 pod m).1 = .error e := by
    unfold getBpfMapStats execCmd
    rcases hparse with ⟨o1, ha, hb⟩ | ⟨o1, C, o2, ha, hb, hc, hd⟩
    · simp [ha, hb]
    · simp [ha, hb, hc, hd]
  have key : ∀ m2 ∈ bpfMapNames, (existBpfMap c s0 pod m2).1 ≠ (false, none) →
      mapGet n.bpfMaps m2 = some (match (getBpfMapStats c s0 pod m2).1 with
        | .ok st => st
        | .error e => { unknownEntry m2 with errMsg := e }) := by
    intro m2 hm2 happ2
    have hg := h5 m2
    rw [if_pos hm2] at hg
    rw [hg]
    rcases hx : (existBpfMap c s0 pod m2).1 with ⟨b, eo⟩
    rw [hx] at happ2
    cases eo with
    | some e1 => cases b <;> rfl
    | none =>
      cases b with
      | false => exact absurd rfl happ2
      | true => rfl
  refine ⟨s2, n, { unknownEntry m with errMsg := e }, h1, h2, ?_, rfl, rfl, ?_, ?_⟩
  · rw [key m hm happ, hstats]
  · intro m2 hm2 happ2 st hst
    rw [key m2 hm2 happ2, hst]
  · intro target err herr
    exact Run_error_sources c s target err herr

/-- Witness of C5: the capacity probe of `cilium_ct4_global` prints `abc`. -/
theorem C5_parse_failure_is_recorded_as_unknown_witness :
    ∃ s2 n b,
      inspectNode
        (clusterWith fun _ cmd =>
          if cmd = maxEntriesCmd "cilium_ct4_global" then .ok "abc" else .ok "10")
        emptyScanner { Name := "n1" } = .done () s2 ∧
      mapGet s2.nodes "n1" = some n ∧ mapGet n.bpfMaps "cilium_ct4_global" = some b ∧
      b.status = bpfMapStatus.Unknown ∧
      b.errMsg = "strconv.Atoi: parsing \"abc\": invalid syntax" := by
  obtain ⟨s2, n, b, h1, h2, h3, h4, h5, _⟩ :=
    C5_parse_failure_is_recorded_as_unknown
      (clusterWith fun _ cmd =>
        if cmd = maxEntriesCmd "cilium_ct4_global" then .ok "abc" else .ok "10")
      emptyScanner emptyScanner { Name := "n1" } podN1
      { nodes := [],
        calls := [.createPod "bpf-inspector-n1" "n1", .waitPodRunning "bpf-inspector-n1"] }
      "cilium_ct4_global" "strconv.Atoi: parsing \"abc\": invalid syntax"
      (by decide) (by decide) (by decide) (Or.inl ⟨"abc", by decide, by decide⟩)
  exact ⟨s2, n, b, h1, h2, h3, h4, h5⟩

end PressureReport

/-! ## C6: capacity 0 -/

/-- C6, as stated, fails: with capacity 0 and current count 0 neither
`getBpfMapStats` nor `processPod` reports an error; the sample is classified
Warning, with a usage that is not a number. -/
theorem C6_counterexample_zero_capacity :
    (pressure.getBpfMapStats (pressure.clusterWith fun _ _ => .ok "0") pressure.emptyScanner
        pressure.podN1 "cilium_ct4_global").1 =
      .ok { name := "", maxEntries := 0, currentEntries := 0, usage := .nan,
            status := .Warning, errMsg := "" } ∧
    scanner.processPod (scanner.envWith "0" "0") scanner.emptyScanner scanner.agentPod =
      (none, { warningNodes := [{ NodeName := "n1", PodName := "cilium-abcde", MaxCnt := 0,
                                  CurrentCnt := 0, Usage := .nan }],
               normalNodes := [], unknownNodes := [] }) := by
  constructor <;> decide

/-- C6 (amended): when the capacity probe parses to 0 no error is reported and
the sample is still classified, by `getBpfMapStats` and by `processPod`:
Warning for every current count `N ≥ 0`, OK for `N < 0`; its usage is NaN for
`N = 0` and an infinity otherwise. -/
theorem C6_zero_capacity_is_classified
    (c : pressure.Cluster) (s : pressure.Scanner) (pod : pressure.Pod) (mapName : String)
    (env : scanner.Env) (t : scanner.Scanner) (p : scanner.Pod)
    (o1 o2 o3 o4 : String) (N : Int)
    (h1 : c.exec pod.Name (pressure.maxEntriesCmd mapName) = .ok o1)
    (h2 : c.exec pod.Name (pressure.currentEntriesCmd mapName) = .ok o2)
    (h3 : env.exec p.Name scanner.maxCntCmd = .ok o3)
    (h4 : env.exec p.Name scanner.currentCntCmd = .ok o4)
    (hp1 : atoi (trimSpace o1) = .ok 0) (hp2 : atoi (trimSpace o2) = .ok N)
    (hp3 : atoi (trimSpace o3) = .ok 0) (hp4 : atoi (trimSpace o4) = .ok N) :
    (∃ b s1, pressure.getBpfMapStats c s pod mapName = (.ok b, s1) ∧
      b.maxEntries = 0 ∧ b.currentEntries = N ∧
      b.status = (if 0 ≤ N then pressure.bpfMapStatus.Warning else pressure.bpfMapStatus.OK) ∧
      b.usage = (if N = 0 then Float64.nan else Float64.inf (decide (N < 0)))) ∧
    scanner.processPod env t p =
      (none,
        if 0 ≤ N then
          { t with warningNodes := t.warningNodes ++ [scanner.measuredRow p 0 N] }
        else { t with normalNodes := t.normalNodes ++ [scanner.measuredRow p 0 N] }) ∧
    (scanner.measuredRow p 0 N).Usage =
      (if N = 0 then Float64.nan else Float64.inf (decide (N < 0))) := by
  refine ⟨?_, ?_, ?_⟩
  · simp only [pressure.getBpfMapStats, pressure.execCmd, h1, h2, hp1, hp2, threshold_zero,
      usage_of_zero_capacity]
    refine ⟨_, _, rfl, rfl, rfl, ?_, rfl⟩
    by_cases h : 0 ≤ N <;> simp [h]
  · simp only [scanner.processPod, scanner.processPodBody, scanner.execCmd, h3, h4, hp3, hp4,
      threshold_zero]
    by_cases h : 0 ≤ N <;> simp [h]
  · exact usage_of_zero_capacity N

/-- Witness of C6 (amended) at capacity 0 and current count 7. -/
theorem C6_zero_capacity_is_classified_witness :
    (∃ b s1,
      pressure.getBpfMapStats
        (pressure.clusterWith fun _ cmd =>
          if cmd = pressure.maxEntriesCmd "cilium_ct4_global" then .ok "0" else .ok "7")
        pressure.emptyScanner pressure.podN1 "cilium_ct4_global" = (.ok b, s1) ∧
      b.maxEntries = 0 ∧ b.currentEntries = 7 ∧
      b.status = pressure.bpfMapStatus.Warning ∧ b.usage = Float64.inf false) ∧
    scanner.processPod (scanner.envWith "0" "7") scanner.emptyScanner scanner.agentPod =
      (none, { scanner.emptyScanner with
        warningNodes := [scanner.measuredRow scanner.agentPod 0 7] }) := by
  have h := C6_zero_capacity_is_classified
    (pressure.clusterWith fun _ cmd =>
      if cmd = pressure.maxEntriesCmd "cilium_ct4_global" then .ok "0" else .ok "7")
    pressure.emptyScanner pressure.podN1 "cilium_ct4_global"
    (scanner.envWith "0" "7") scanner.emptyScanner scanner.agentPod
    "0" "7" "0" "7" 7 (by decide) (by decide) (by decide) (by decide)
    (by decide) (by decide) (by decide) (by decide)
  obtain ⟨⟨b, s1, hb1, hb2, hb3, hb4, hb5⟩, hp, _⟩ := h
  exact ⟨⟨b, s1, hb1, hb2, hb3, by simpa using hb4, by simpa using hb5⟩, by simpa using hp⟩

/-! ## Sorting and float64 comparisons -/

theorem insertBack_perm {α : Type} (less : α → α → Bool) (x : α) (acc : List α) :
    (insertBack less x acc).Perm (x :: acc) := by
  induction acc with
  | nil => simp [insertBack]
  | cons p ps ih =>
    unfold insertBack
    by_cases h : less x p = true
    · simp only [h, if_true]
      exact (List.Perm.cons p ih).trans (List.Perm.swap x p ps)
    · simp only [h, Bool.false_eq_true, if_false]
      exact List.Perm.refl _

theorem sortSlice_perm {α : Type} (less : α → α → Bool) (xs : List α) :
    (sortSlice less xs).Perm xs := by
  have gen : ∀ (xs acc : List α),
      (xs.foldl (fun acc x => insertBack less x acc) acc).Perm (xs.reverse ++ acc) := by
    intro xs
    induction xs with
    | nil => intro acc; simp
    | cons a tl ih =>
      intro acc
      simp only [List.foldl_cons, List.reverse_cons, List.append_assoc, List.singleton_append]
      exact (ih _).trans (List.Perm.append_left _ (insertBack_perm less a acc))
  unfold sortSlice
  have h := gen xs []
  simp only [List.append_nil] at h
  exact (List.reverse_perm _).trans (h.trans (List.reverse_perm _))

theorem insertBack_sorted {α κ : Type} [LinearOrder κ] (less : α → α → Bool) (key : α → κ)
    (P : α → Prop) (hless : ∀ a b, P a → P b → (less a b = true ↔ key b < key a))
    (x : α) (hx : P x) (acc : List α) (hacc : ∀ a ∈ acc, P a)
    (hs : acc.Pairwise fun a b => key a ≤ key b) :
    (insertBack less x acc).Pairwise fun a b => key a ≤ key b := by
  induction acc with
  | nil => simp [insertBack]
  | cons p ps ih =>
    have hp : P p := hacc p (List.mem_cons_self _ _)
    have hps : ∀ a ∈ ps, P a := fun a ha => hacc a (List.mem_cons_of_mem _ ha)
    rw [List.pairwise_cons] at hs
    unfold insertBack
    by_cases h : less x p = true
    · simp only [h, if_true]
      rw [List.pairwise_cons]
      refine ⟨?_, ih hps hs.2⟩
      intro b hb
      have hb' : b ∈ x :: ps := (insertBack_perm less x ps).subset hb
      rcases List.mem_cons.1 hb' with rfl | hb''
      · exact le_of_lt ((hless _ _ hx hp).1 h)
      · exact hs.1 b hb''
    · simp only [h, Bool.false_eq_true, if_false]
      have hxp : key x ≤ key p := by
        by_contra hc
        exact h ((hless _ _ hx hp).2 (lt_of_not_le hc))
      rw [List.pairwise_cons]
      refine ⟨?_, List.pairwise_cons.2 hs⟩
      intro b hb
      rcases List.mem_cons.1 hb with rfl | hb'
      · exact hxp
      · exact le_trans hxp (hs.1 b hb')

theorem sortSlice_sorted {α κ : Type} [LinearOrder κ] (less : α → α → Bool) (key : α → κ)
    (P : α → Prop) (hless : ∀ a b, P a → P b → (less a b = true ↔ key b < key a))
    (xs : List α) (hxs : ∀ a ∈ xs, P a) :
    (sortSlice less xs).Pairwise fun a b => key b ≤ key a := by
  have gen : ∀ (xs acc : List α), (∀ a ∈ xs, P a) → (∀ a ∈ acc, P a) →
      (acc.Pairwise fun a b => key a ≤ key b) →
      (xs.foldl (fun acc x => insertBack less x acc) acc).Pairwise fun a b => key a ≤ key b := by
    intro xs
    induction xs with
    | nil => intro acc _ _ h; exact h
    | cons a tl ih =>
      intro acc hx hacc hs
      simp only [List.foldl_cons]
      apply ih
      · exact fun b hb => hx b (List.mem_cons_of_mem _ hb)
      · intro b hb
        have := (insertBack_perm less a acc).subset hb
        rcases List.mem_cons.1 this with rfl | h'
        · exact hx _ (List.mem_cons_self _ _)
        · exact hacc b h'
      · exact insertBack_sorted less key P hless a (hx a (List.mem_cons_self _ _)) acc hacc hs
  unfold sortSlice
  rw [List.pairwise_reverse]
  exact gen xs [] hxs (by simp) List.Pairwise.nil

theorem toRat_scaled (s : Bool) (m : Nat) (e lo : Int) (h : lo ≤ e) :
    Float64.toRat (.fin s m e) =
      (((if s then -1 else 1) * ((m * 2 ^ (e - lo).toNat : Nat) : Int) : Int) : ℚ) *
        (2 : ℚ) ^ lo := by
  have h2 : (2 : ℚ) ^ e = (2 : ℚ) ^ ((e - lo).toNat : ℕ) * (2 : ℚ) ^ lo := by
    rw [← zpow_natCast, ← zpow_add₀ (by norm_num : (2 : ℚ) ≠ 0)]
    congr 1
    have : ((e - lo).toNat : Int) = e - lo := Int.toNat_of_nonneg (by omega)
    omega
  simp only [Float64.toRat]
  rw [h2]
  cases s <;> simp <;> ring

theorem gt_fin_iff (s : Bool) (m : Nat) (e : Int) (t : Bool) (n : Nat) (f : Int) :
    Float64.gt (.fin s m e) (.fin t n f) = true ↔
      Float64.toRat (.fin t n f) < Float64.toRat (.fin s m e) := by
  rw [toRat_scaled s m e (min e f) (min_le_left _ _),
    toRat_scaled t n f (min e f) (min_le_right _ _)]
  have hpos : (0 : ℚ) < (2 : ℚ) ^ (min e f) := by positivity
  rw [mul_lt_mul_right hpos]
  simp only [Float64.gt, decide_eq_true_eq, gt_iff_lt]
  exact Int.cast_lt.symm

theorem gt_iff_key (a b : Float64) (ha : a ≠ .nan) (hb : b ≠ .nan) :
    Float64.gt a b = true ↔ Float64.key b < Float64.key a := by
  cases a with
  | nan => exact absurd rfl ha
  | inf s =>
    cases b with
    | nan => exact absurd rfl hb
    | inf t =>
      cases s <;> cases t <;> simp [Float64.gt, Float64.key]
    | fin t n f =>
      cases s
      · simp only [Float64.gt, Float64.key, Bool.not_false, true_iff]
        exact WithBot.coe_lt_coe.2 (WithTop.coe_lt_top _)
      · simp [Float64.gt, Float64.key]
  | fin s m e =>
    cases b with
    | nan => exact absurd rfl hb
    | inf t =>
      cases t
      · simp only [Float64.gt, Float64.key, Bool.false_eq_true, false_iff, not_lt]
        exact WithBot.coe_le_coe.2 le_top
      · simp only [Float64.gt, Float64.key, true_iff]
        exact WithBot.bot_lt_coe _
    | fin t n f =>
      rw [gt_fin_iff]
      simp only [Float64.key, WithBot.coe_lt_coe, WithTop.coe_lt_coe]

theorem ge_iff_key (a b : Float64) (ha : a ≠ .nan) (hb : b ≠ .nan) :
    Float64.ge a b = true ↔ Float64.key b ≤ Float64.key a := by
  have h := gt_iff_key b a hb ha
  have hge : Float64.ge a b = !(Float64.gt b a) := by
    cases a with
    | nan => exact absurd rfl ha
    | inf s => cases b <;> first | exact absurd rfl hb | rfl
    | fin s m e => cases b <;> first | exact absurd rfl hb | rfl
  rw [hge, ← not_lt, ← h]
  cases Float64.gt b a <;> simp

theorem ge_nan_left (b : Float64) : Float64.ge .nan b = false := by
  cases b <;> rfl

theorem ge_nan_right (a : Float64) : Float64.ge a .nan = false := by
  cases a <;> rfl

/-! ## C7: the order of the rows `scanner.print` emits -/

section C7

open scanner

/-- C7, as stated, fails: a pod whose probes print capacity 0 and count 0 is
filed in the warning group with usage NaN; with a second warning row of usage
90 `print` emits the NaN row first, `NaN >= 90` is false, and no arrangement
of the two rows is in non-increasing usage order. -/
theorem C7_counterexample_nan_usage :
    (processPod (envWith "100" "90")
        (processPod (envWith "0" "0") emptyScanner agentPod).2
        { Name := "cilium-fghij", NodeName := "n2" }).2 =
      { warningNodes :=
          [{ NodeName := "n1", PodName := "cilium-abcde", MaxCnt := 0, CurrentCnt := 0,
             Usage := .nan },
           { NodeName := "n2", PodName := "cilium-fghij", MaxCnt := 100, CurrentCnt := 90,
             Usage := Float64.mul (Float64.div (Float64.ofInt 90) (Float64.ofInt 100)) const_100 }],
        normalNodes := [], unknownNodes := [] } ∧
    (print (envWith "" "")
        { warningNodes :=
            [{ NodeName := "n1", PodName := "cilium-abcde", MaxCnt := 0, CurrentCnt := 0,
               Usage := .nan },
             { NodeName := "n2", PodName := "cilium-fghij", MaxCnt := 100, CurrentCnt := 90,
               Usage :=
                 Float64.mul (Float64.div (Float64.ofInt 90) (Float64.ofInt 100)) const_100 }],
          normalNodes := [], unknownNodes := [] }).2.2 =
      [Line.header,
       Line.warning { NodeName := "n1", PodName := "cilium-abcde", MaxCnt := 0, CurrentCnt := 0,
                      Usage := .nan },
       Line.warning { NodeName := "n2", PodName := "cilium-fghij", MaxCnt := 100,
                      CurrentCnt := 90,
                      Usage :=
                        Float64.mul (Float64.div (Float64.ofInt 90) (Float64.ofInt 100))
                          const_100 }] ∧
    Float64.ge .nan
      (Float64.mul (Float64.div (Float64.ofInt 90) (Float64.ofInt 100)) const_100) = false ∧
    ∀ W : List NodeInfo,
      W.Perm
        [{ NodeName := "n1", PodName := "cilium-abcde", MaxCnt := 0, CurrentCnt := 0,
           Usage := .nan },
         { NodeName := "n2", PodName := "cilium-fghij", MaxCnt := 100, CurrentCnt := 90,
           Usage := Float64.mul (Float64.div (Float64.ofInt 90) (Float64.ofInt 100)) const_100 }] →
      ¬ W.Chain' (fun a b => Float64.ge a.Usage b.Usage = true) := by
  refine ⟨by decide, by decide, by decide, ?_⟩
  intro W hW hchain
  have hlen : W.length = 2 := hW.length_eq
  match W, hlen with
  | [x, y], _ =>
    simp only [List.chain'_cons, List.chain'_singleton, and_true] at hchain
    have hmem := hW.symm.subset (List.mem_cons_self _ _)
    rcases List.mem_cons.1 hmem with h | h
    · rw [← h, ge_nan_left] at hchain
      exact Bool.noConfusion hchain
    · rw [List.mem_singleton] at h
      rw [← h, ge_nan_right] at hchain
      exact Bool.noConfusion hchain

/-- C7 (amended): for every content of the three groups in which no warning
and no normal row has usage NaN, `print` emits the header, then the warning
rows in non-increasing usage order, then the normal rows in non-increasing
usage order, then the unknown rows in their insertion order; the warning and
the normal rows emitted are permutations of the rows recorded. -/
theorem C7_print_orders_groups (env : Env) (s : Scanner)
    (hw : ∀ r ∈ s.warningNodes, r.Usage ≠ .nan) (hn : ∀ r ∈ s.normalNodes, r.Usage ≠ .nan) :
    ∃ W N : List NodeInfo,
      (print env s).2.2 =
        [Line.header] ++ W.map Line.warning ++ N.map Line.ok ++
          s.unknownNodes.map Line.unknown ∧
      W.Perm s.warningNodes ∧ N.Perm s.normalNodes ∧
      W.Pairwise (fun a b => Float64.ge a.Usage b.Usage = true) ∧
      N.Pairwise (fun a b => Float64.ge a.Usage b.Usage = true) := by
  have hless : ∀ a b : NodeInfo, a.Usage ≠ .nan → b.Usage ≠ .nan →
      (usageGreater a b = true ↔ Float64.key b.Usage < Float64.key a.Usage) :=
    fun a b ha hb => gt_iff_key a.Usage b.Usage ha hb
  have sorted : ∀ xs : List NodeInfo, (∀ r ∈ xs, r.Usage ≠ .nan) →
      (sortSlice usageGreater xs).Pairwise (fun a b => Float64.ge a.Usage b.Usage = true) := by
    intro xs hxs
    have h1 := sortSlice_sorted usageGreater (fun r => Float64.key r.Usage)
      (fun r => r.Usage ≠ .nan) hless xs hxs
    have hmem : ∀ r ∈ sortSlice usageGreater xs, r.Usage ≠ .nan :=
      fun r hr => hxs r ((sortSlice_perm usageGreater xs).subset hr)
    refine List.Pairwise.imp_of_mem ?_ h1
    intro a b ha hb hab
    exact (ge_iff_key a.Usage b.Usage (hmem a ha) (hmem b hb)).2 hab
  refine ⟨sortSlice usageGreater s.warningNodes, sortSlice usageGreater s.normalNodes, ?_,
    sortSlice_perm _ _, sortSlice_perm _ _, sorted _ hw, sorted _ hn⟩
  unfold print
  cases env.flushErr <;> rfl

/-- Witness of C7 (amended): warning usages 55, 90, 81. -/
theorem C7_print_orders_groups_witness :
    ∃ W N : List NodeInfo,
      (print (envWith "" "")
        { warningNodes :=
            [{ NodeName := "a", PodName := "pa", MaxCnt := 100, CurrentCnt := 55,
               Usage := .fin false 55 0 },
             { NodeName := "b", PodName := "pb", MaxCnt := 100, CurrentCnt := 90,
               Usage := .fin false 90 0 },
             { NodeName := "c", PodName := "pc", MaxCnt := 100, CurrentCnt := 81,
               Usage := .fin false 81 0 }],
          normalNodes := [], unknownNodes := [] }).2.2 =
        [Line.header] ++ W.map Line.warning ++ N.map Line.ok ++
          ([] : List NodeInfo).map Line.unknown ∧
      W.Perm
        [{ NodeName := "a", PodName := "pa", MaxCnt := 100, CurrentCnt := 55,
           Usage := .fin false 55 0 },
         { NodeName := "b", PodName := "pb", MaxCnt := 100, CurrentCnt := 90,
           Usage := .fin false 90 0 },
         { NodeName := "c", PodName := "pc", MaxCnt := 100, CurrentCnt := 81,
           Usage := .fin false 81 0 }] ∧
      N.Perm [] ∧
      W.Pairwise (fun a b => Float64.ge a.Usage b.Usage = true) ∧
      N.Pairwise (fun a b => Float64.ge a.Usage b.Usage = true) :=
  C7_print_orders_groups (envWith "" "")
    { warningNodes :=
        [{ NodeName := "a", PodName := "pa", MaxCnt := 100, CurrentCnt := 55,
           Usage := .fin false 55 0 },
         { NodeName := "b", PodName := "pb", MaxCnt := 100, CurrentCnt := 90,
           Usage := .fin false 90 0 },
         { NodeName := "c", PodName := "pc", MaxCnt := 100, CurrentCnt := 81,
           Usage := .fin false 81 0 }],
      normalNodes := [], unknownNodes := [] }
    (by decide) (by decide)

end C7

/-! ## C8: the order of the rows `pressure.printResult` emits -/

section C8

open pressure

/-- C8, evaluated on the code: `printResult` appends the rows of a status in
the order the two `range` loops visit the maps and never sorts them; for a
node with three Warning maps visited in the order 81 %, 90 %, 95 % the rows
are emitted in that order, the larger usage after the smaller. -/
theorem C8_printResult_does_not_sort :
    (Run (clusterWith fun _ cmd =>
          if cmd = existCmd "cilium_ct4_global" ∨ cmd = existCmd "cilium_ct6_global" ∨
             cmd = existCmd "cilium_snat_v4_external" then .ok ""
          else if cmd = maxEntriesCmd "cilium_ct4_global" ∨
             cmd = maxEntriesCmd "cilium_ct6_global" ∨
             cmd = maxEntriesCmd "cilium_snat_v4_external" then .ok "100"
          else if cmd = currentEntriesCmd "cilium_ct4_global" then .ok "81"
          else if cmd = currentEntriesCmd "cilium_ct6_global" then .ok "90"
          else if cmd = currentEntriesCmd "cilium_snat_v4_external" then .ok "95"
          else .error "command terminated with exit code 1") emptyScanner "").2.2 =
      [Line.header,
       Line.measured .Warning "n1" "cilium_ct4_global"
         (Float64.mul (Float64.div (Float64.ofInt 81) (Float64.ofInt 100)) const_100) 81 100,
       Line.measured .Warning "n1" "cilium_ct6_global"
         (Float64.mul (Float64.div (Float64.ofInt 90) (Float64.ofInt 100)) const_100) 90 100,
       Line.measured .Warning "n1" "cilium_snat_v4_external"
         (Float64.mul (Float64.div (Float64.ofInt 95) (Float64.ofInt 100)) const_100) 95 100,
       Line.advice] ∧
    Float64.gt (Float64.mul (Float64.div (Float64.ofInt 90) (Float64.ofInt 100)) const_100)
      (Float64.mul (Float64.div (Float64.ofInt 81) (Float64.ofInt 100)) const_100) = true := by
  constructor <;> decide

end C8

/-! ## C9: node discovery -/

section C9

open pressure


namespace pressure

/-- The filtering loop of `listNodes` keeps the matching nodes, in order. -/
theorem foldl_append_filter (target : String) (items init : List K8sNode) :
    items.foldl (fun filteredNodes nd =>
        if nd.Name = target then filteredNodes ++ [nd] else filteredNodes) init =
      init ++ items.filter (fun nd => decide (nd.Name = target)) := by
  induction items generalizing init with
  | nil => simp
  | cons a tl ih =>
    simp only [List.foldl_cons, ih]
    by_cases h : a.Name = target <;> simp [h, List.filter_cons]

end pressure


/-- C9: for every discovered node list and filter, `listNodes` returns exactly
the nodes whose name equals the filter (all nodes, in order, when the filter
is empty) and fails with `no nodes found` if and only if that list is empty;
when it fails, `Run` returns an error and the node listing is the only request
it has sent: no namespace is ensured and no pod created. -/
theorem C9_listNodes_selects_by_name (c : Cluster) (s : Scanner) (items : List K8sNode)
    (target : String) (h : c.listNodes = .ok items) :
    ((listNodes c s target).1 =
      if (if target = "" then items else items.filter fun nd => decide (nd.Name = target)) = []
      then .error "no nodes found"
      else .ok (if target = "" then items else items.filter fun nd => decide (nd.Name = target))) ∧
    ((if target = "" then items else items.filter fun nd => decide (nd.Name = target)) = [] →
      Run c s target =
        (some "failed to get nodes: no nodes found",
          { s with calls := s.calls ++ [ApiCall.listNodes] }, [])) := by
  have hl : listNodes c s target =
      (if (if target = "" then items else items.filter fun nd => decide (nd.Name = target)) = []
        then .error "no nodes found"
        else .ok (if target = "" then items
          else items.filter fun nd => decide (nd.Name = target)),
        { s with calls := s.calls ++ [ApiCall.listNodes] }) := by
    unfold listNodes
    simp only [h, foldl_append_filter, List.nil_append, List.length_eq_zero]
    by_cases ht : target = ""
    · simp only [ht, ne_eq, not_true_eq_false, if_false, if_true]
      by_cases he : items = [] <;> simp [he]
    · simp only [ht, ne_eq, not_false_eq_true, if_true, if_false]
      by_cases he : items.filter (fun nd => decide (nd.Name = target)) = [] <;> simp [he]
  refine ⟨by rw [hl], ?_⟩
  intro hempty
  unfold Run
  rw [hl, if_pos hempty]
  rfl

/-- Witness of C9: nodes `n1`, `n2` with filters `n3` (no match) and `n2`. -/
theorem C9_listNodes_selects_by_name_witness :
    (listNodes { clusterWith (fun _ _ => .ok "") with
                 listNodes := .ok [{ Name := "n1" }, { Name := "n2" }] }
        emptyScanner "n3").1 = .error "no nodes found" ∧
    Run { clusterWith (fun _ _ => .ok "") with
          listNodes := .ok [{ Name := "n1" }, { Name := "n2" }] }
        emptyScanner "n3" =
      (some "failed to get nodes: no nodes found",
        { nodes := [], calls := [ApiCall.listNodes] }, []) ∧
    (listNodes { clusterWith (fun _ _ => .ok "") with
                 listNodes := .ok [{ Name := "n1" }, { Name := "n2" }] }
        emptyScanner "n2").1 = .ok [{ Name := "n2" }] := by
  have h := C9_listNodes_selects_by_name
    { clusterWith (fun _ _ => .ok "") with
      listNodes := .ok [{ Name := "n1" }, { Name := "n2" }] }
    emptyScanner [{ Name := "n1" }, { Name := "n2" }] "n3" rfl
  have h2 := C9_listNodes_selects_by_name
    { clusterWith (fun _ _ => .ok "") with
      listNodes := .ok [{ Name := "n1" }, { Name := "n2" }] }
    emptyScanner [{ Name := "n1" }, { Name := "n2" }] "n2" rfl
  refine ⟨?_, ?_, ?_⟩
  · rw [h.1]; decide
  · exact h.2 (by decide)
  · rw [h2.1]; decide

end C9

/-! ## C10: one row per pod -/

section C10

open scanner

/-- C10: for every pod and every outcome of its two probes, `processPod`
appends exactly one row to exactly one of the three groups and leaves the
other two groups and all rows recorded before unchanged; the row goes to the
unknown group if and only if a probe execution or an integer parse failed,
which is also exactly when `processPod` returns an error. -/
theorem C10_processPod_files_one_row (env : Env) (t : Scanner) (p : Pod) :
    ((processPod env t p).2.warningNodes.length + (processPod env t p).2.normalNodes.length +
        (processPod env t p).2.unknownNodes.length =
      t.warningNodes.length + t.normalNodes.length + t.unknownNodes.length + 1) ∧
    ((∃ row, (processPod env t p).2 = { t with warningNodes := t.warningNodes ++ [row] }) ∨
     (∃ row, (processPod env t p).2 = { t with normalNodes := t.normalNodes ++ [row] }) ∨
     (processPod env t p).2 = { t with unknownNodes := t.unknownNodes ++ [unknownRow p] }) ∧
    ((processPod env t p).2 = { t with unknownNodes := t.unknownNodes ++ [unknownRow p] } ↔
      ((∃ e, env.exec p.Name maxCntCmd = .error e) ∨
       (∃ o e, env.exec p.Name maxCntCmd = .ok o ∧ atoi (trimSpace o) = .error e) ∨
       (∃ e, env.exec p.Name currentCntCmd = .error e) ∨
       (∃ o e, env.exec p.Name currentCntCmd = .ok o ∧ atoi (trimSpace o) = .error e))) ∧
    ((processPod env t p).1 ≠ none ↔
      (processPod env t p).2 = { t with unknownNodes := t.unknownNodes ++ [unknownRow p] }) := by
  obtain ⟨w, n, u⟩ := t
  unfold processPod processPodBody execCmd
  cases h1 : env.exec p.Name maxCntCmd with
  | error e => simp; omega
  | ok o1 =>
    simp only
    cases h2 : atoi (trimSpace o1) with
    | error e => simp [h2]; omega
    | ok C =>
      simp only
      cases h3 : env.exec p.Name currentCntCmd with
      | error e => simp; omega
      | ok o2 =>
        simp only
        cases h4 : atoi (trimSpace o2) with
        | error e => simp [h4]; omega
        | ok N =>
          simp only
          by_cases hc : N ≥ Float64.toInt (Float64.mul (Float64.ofInt C) const_0_8)
          · simp [hc, h2, h4]
            omega
          · simp [hc, h2, h4]
            omega

end C10

/-! ## C11: probes after a failed existence check -/

section C11

open pressure

/-- C11, evaluated on the code: the existence check of `cilium_ct4_global`
fails with a genuine error (`context deadline exceeded`), the entry stays in
the map, and the loop of `inspectNode` still runs the capacity and the
current-count probe for it; both succeed, and the report holds the metric as
a measured OK sample, the existence-check error text gone. -/
theorem C11_probes_run_after_failed_existence_check :
    (existBpfMap
        (clusterWith fun _ cmd =>
          if cmd = existCmd "cilium_ct4_global" then .error "context deadline exceeded"
          else if cmd = maxEntriesCmd "cilium_ct4_global" then .ok "100"
          else if cmd = currentEntriesCmd "cilium_ct4_global" then .ok "10"
          else .error "command terminated with exit code 1")
        emptyScanner podN1 "cilium_ct4_global").1 = (false, some "context deadline exceeded") ∧
    ∃ s2,
      inspectNode
        (clusterWith fun _ cmd =>
          if cmd = existCmd "cilium_ct4_global" then .error "context deadline exceeded"
          else if cmd = maxEntriesCmd "cilium_ct4_global" then .ok "100"
          else if cmd = currentEntriesCmd "cilium_ct4_global" then .ok "10"
          else .error "command terminated with exit code 1")
        emptyScanner { Name := "n1" } = .done () s2 ∧
      ApiCall.exec "bpf-inspector-n1" (maxEntriesCmd "cilium_ct4_global") ∈ s2.calls ∧
      ApiCall.exec "bpf-inspector-n1" (currentEntriesCmd "cilium_ct4_global") ∈ s2.calls ∧
      s2.nodes =
        [("n1", { name := "n1",
                  bpfMaps := [("cilium_ct4_global",
                    { name := "", maxEntries := 100, currentEntries := 10,
                      usage :=
                        Float64.mul (Float64.div (Float64.ofInt 10) (Float64.ofInt 100)) const_100,
                      status := .OK, errMsg := "" })] })] := by
  refine ⟨by decide, _, rfl, by decide, by decide, by decide⟩

end C11

/-! ## C12: the shutdown handler on a normal run -/

section C12

open pressure

/-- C12, as stated, fails: a run over one node that completes normally, with
no interrupt signal, ends with the requests of the draining path: the handler
deletes the inspector pod of the node (after the task already did), polls the
namespace and deletes it. -/
theorem C12_counterexample_normal_run_drains :
    (Run (clusterWith fun _ _ => .error "command terminated with exit code 1")
        emptyScanner "").1 = none ∧
    (Run (clusterWith fun _ _ => .error "command terminated with exit code 1")
        emptyScanner "").2.1.calls.reverse.take 4 =
      [ApiCall.deleteNamespace "bpf-inspect", ApiCall.waitPodsGone "bpf-inspect",
       ApiCall.deletePod "bpf-inspector-n1", ApiCall.deletePod "bpf-inspector-n1"] := by
  constructor <;> decide

namespace pressure

/-- Nothing added is an extension. -/
theorem TaskExtends.refl (s : Scanner) : TaskExtends s s :=
  ⟨[], by simp, by simp⟩

/-- Extensions compose. -/
theorem TaskExtends.trans {s s2 s3 : Scanner} (h1 : TaskExtends s s2) (h2 : TaskExtends s2 s3) :
    TaskExtends s s3 := by
  obtain ⟨e1, h1a, h1b⟩ := h1
  obtain ⟨e2, h2a, h2b⟩ := h2
  refine ⟨e1 ++ e2, by rw [h2a, h1a, List.append_assoc], ?_⟩
  intro x hx
  rcases List.mem_append.1 hx with h | h
  · exact h1b x h
  · exact h2b x h

/-- One more task request is an extension. -/
theorem TaskExtends.step (s : Scanner) (nodes : List (String × node)) (x : ApiCall)
    (hx : taskCall x = true) : TaskExtends s { nodes := nodes, calls := s.calls ++ [x] } :=
  ⟨[x], rfl, by simpa using hx⟩

/-- `execCmd` adds only the exec request. -/
theorem execCmd_ext (c : Cluster) (s : Scanner) (pod : Pod) (cmd : List String) :
    TaskExtends s (execCmd c s pod cmd).2 := by
  unfold execCmd
  cases c.exec pod.Name cmd <;> exact TaskExtends.step s _ _ rfl

/-- `existBpfMap` adds only task requests. -/
theorem existBpfMap_ext (c : Cluster) (s : Scanner) (pod : Pod) (m : String) :
    TaskExtends s (existBpfMap c s pod m).2 := by
  have h := execCmd_ext c s pod (existCmd m)
  unfold existBpfMap
  rcases hx : execCmd c s pod (existCmd m) with ⟨r, s1⟩
  rw [hx] at h
  cases r with
  | error e => by_cases hc : stringsContains e "exit code 1" = true <;> simpa [hc] using h
  | ok o => simpa using h

/-- `getBpfMapStats` adds only task requests. -/
theorem getBpfMapStats_ext (c : Cluster) (s : Scanner) (pod : Pod) (m : String) :
    TaskExtends s (getBpfMapStats c s pod m).2 := by
  have h1 := execCmd_ext c s pod (maxEntriesCmd m)
  unfold getBpfMapStats
  rcases hx : execCmd c s pod (maxEntriesCmd m) with ⟨r, s1⟩
  rw [hx] at h1
  cases r with
  | error e => exact h1
  | ok o =>
    simp only
    cases atoi o with
    | error e => exact h1
    | ok C =>
      simp only
      have h2 := execCmd_ext c s1 pod (currentEntriesCmd m)
      rcases hy : execCmd c s1 pod (currentEntriesCmd m) with ⟨r2, s2⟩
      rw [hy] at h2
      cases r2 with
      | error e => exact h1.trans h2
      | ok o2 =>
        simp only
        cases atoi o2 <;> exact h1.trans h2

/-- The existence loop adds only task requests, whether it returns or faults. -/
theorem filterMaps_ext (c : Cluster) (pod : Pod) :
    ∀ (ns : List String) (n : node) (s : Scanner) (s2 : Scanner),
      ((∃ n2, filterMaps c pod ns n s = .done n2 s2) ∨ filterMaps c pod ns n s = .panic s2) →
      TaskExtends s s2 := by
  intro ns
  induction ns with
  | nil =>
    intro n s s2 h
    rcases h with ⟨n2, h⟩ | h
    · simp only [filterMaps, Outcome.done.injEq] at h
      rw [← h.2]; exact TaskExtends.refl s
    · simp [filterMaps] at h
  | cons k rest ih =>
    intro n s s2 h
    have he := existBpfMap_ext c s pod k
    unfold filterMaps at h
    rcases hx : existBpfMap c s pod k with ⟨⟨b, eo⟩, s1⟩
    rw [hx] at h he
    cases eo with
    | some e =>
      simp only at h
      cases hg : mapGet n.bpfMaps k with
      | none =>
        rw [hg] at h
        simp only at h
        rcases h with ⟨n2, h⟩ | h
        · exact absurd h (by simp)
        · simp only [Outcome.panic.injEq] at h
          rw [← h]; exact he
      | some v =>
        rw [hg] at h
        simp only at h
        exact he.trans (ih _ _ _ h)
    | none =>
      cases b with
      | false =>
        simp only at h
        exact he.trans (ih _ _ _ h)
      | true =>
        simp only at h
        exact he.trans (ih _ _ _ h)

/-- The probing loop adds only task requests. -/
theorem inspectMaps_ext (c : Cluster) (pod : Pod) :
    ∀ (es : List (String × bpfMap)) (n : node) (s : Scanner),
      TaskExtends s (inspectMaps c pod es n s).2 := by
  intro es
  induction es with
  | nil => intro n s; exact TaskExtends.refl s
  | cons hd tl ih =>
    intro n s
    obtain ⟨k, b⟩ := hd
    have hg := getBpfMapStats_ext c s pod k
    unfold inspectMaps
    rcases hx : getBpfMapStats c s pod k with ⟨r, s1⟩
    rw [hx] at hg
    cases r with
    | error e => exact hg.trans (ih _ _)
    | ok st => exact hg.trans (ih _ _)

/-- `ensureInspectorPod` adds only task requests. -/
theorem ensureInspectorPod_ext (c : Cluster) (s : Scanner) (nodeName : String) :
    TaskExtends s (ensureInspectorPod c s nodeName).2 := by
  unfold ensureInspectorPod
  simp only
  have h1 : TaskExtends s
      { s with calls := s.calls ++ [ApiCall.createPod (podNamePrefix ++ "-" ++ nodeName) nodeName] } :=
    TaskExtends.step s _ _ rfl
  have h2 : ∀ nm : String, TaskExtends s
      { s with calls := s.calls ++
          [ApiCall.createPod (podNamePrefix ++ "-" ++ nodeName) nodeName] ++
          [ApiCall.waitPodRunning nm] } :=
    fun nm => h1.trans (TaskExtends.step _ _ _ rfl)
  cases c.createPod _ with
  | error err =>
    by_cases h : err.alreadyExists = true
    · simp only [h, Bool.not_true, Bool.false_eq_true, if_false]
      cases c.waitRunning _ <;> exact h2 _
    · simp only [h, Bool.not_false, if_true]
      exact h1
  | ok p =>
    simp only
    cases c.waitRunning _ <;> exact h2 _

/-- `inspectNode` adds only task requests, whether it returns or faults. -/
theorem inspectNode_ext (c : Cluster) (s : Scanner) (nd : K8sNode) (s2 : Scanner)
    (h : inspectNode c s nd = .done () s2 ∨ inspectNode c s nd = .panic s2) :
    TaskExtends s s2 := by
  have he := ensureInspectorPod_ext c s nd.Name
  unfold inspectNode at h
  rcases hx : ensureInspectorPod c s nd.Name with ⟨r, s1⟩
  rw [hx] at h he
  cases r with
  | error e =>
    simp only at h
    rcases h with h | h
    · exact absurd h (by simp)
    · simp only [Outcome.panic.injEq] at h
      rw [← h]; exact he
  | ok pod =>
    simp only [filterExistingBpfMaps] at h
    rcases hf : filterMaps c pod bpfMapNames (newNode nd.Name) s1 with ⟨n1, s3⟩ | s3
    · rw [hf] at h
      have hfe := filterMaps_ext c pod bpfMapNames (newNode nd.Name) s1 s3 (Or.inl ⟨n1, hf⟩)
      have hi := inspectMaps_ext c pod n1.bpfMaps n1 s3
      rcases hy : inspectMaps c pod n1.bpfMaps n1 s3 with ⟨n2, s4⟩
      simp only [hy] at h hi
      rcases h with h | h
      · simp only [Outcome.done.injEq, true_and] at h
        rw [← h]
        refine he.trans (hfe.trans (hi.trans ?_))
        obtain ⟨calls4, _⟩ : ∃ x, x = s4.calls := ⟨_, rfl⟩
        exact ⟨[ApiCall.deletePod pod.Name], rfl, by simp [taskCall]⟩
      · exact absurd h (by simp)
    · rw [hf] at h
      have hfe := filterMaps_ext c pod bpfMapNames (newNode nd.Name) s1 s3 (Or.inr hf)
      simp only at h
      rcases h with h | h
      · exact absurd h (by simp)
      · simp only [Outcome.panic.injEq] at h
        rw [← h]
        exact he.trans (hfe.trans ⟨[ApiCall.deletePod pod.Name], rfl, by simp [taskCall]⟩)

/-- The pool tasks add only task requests. -/
theorem runTasks_ext (c : Cluster) (nodes : List K8sNode) :
    ∀ s : Scanner, TaskExtends s (runTasks c s nodes) := by
  induction nodes with
  | nil => intro s; exact TaskExtends.refl s
  | cons a tl ih =>
    intro s
    unfold runTasks
    simp only [List.foldl_cons]
    cases hx : inspectNode c s a with
    | done u s1 =>
      have := inspectNode_ext c s a s1 (Or.inl (by rw [hx]))
      exact this.trans (ih s1)
    | panic s1 =>
      have := inspectNode_ext c s a s1 (Or.inr hx)
      exact this.trans (ih s1)

/-- The first loop of the shutdown handler sends one pod deletion per node. -/
theorem foldl_deletePod_calls (nodes : List K8sNode) (s : Scanner) :
    (nodes.foldl (fun s nd => deletePod s (podNamePrefix ++ "-" ++ nd.Name)) s) =
      { s with calls := s.calls ++
          nodes.map fun nd => ApiCall.deletePod (podNamePrefix ++ "-" ++ nd.Name) } := by
  induction nodes generalizing s with
  | nil => simp
  | cons a tl ih =>
    rw [List.foldl_cons, ih]
    simp [deletePod]

/-- The requests the shutdown handler sends once its context is done. -/
theorem startShutdownHandler_calls (c : Cluster) (s : Scanner) (nodes : List K8sNode) :
    startShutdownHandler c s nodes =
      { s with calls := s.calls ++
          (nodes.map fun nd => ApiCall.deletePod (podNamePrefix ++ "-" ++ nd.Name)) ++
          [ApiCall.waitPodsGone inspectNS] ++
          (if c.waitPodsGone = none then [ApiCall.deleteNamespace inspectNS] else []) } := by
  unfold startShutdownHandler
  simp only [foldl_deletePod_calls]
  cases hw : c.waitPodsGone with
  | some e => simp
  | none =>
    unfold deleteInspectorNamespace
    cases hd : c.deleteNamespace with
    | none => simp
    | some err => by_cases hnf : err.notFound = true <;> simp [hnf]

/-- `listNodes` sends the node listing and nothing else. -/
theorem listNodes_state (c : Cluster) (s : Scanner) (target : String) :
    (listNodes c s target).2 = { s with calls := s.calls ++ [ApiCall.listNodes] } := by
  unfold listNodes
  cases c.listNodes with
  | error e => rfl
  | ok items =>
    simp only
    split <;> split <;> rfl

/-- `ensureInspectNS` sends the namespace creation and nothing else. -/
theorem ensureInspectNS_state (c : Cluster) (s : Scanner) :
    (ensureInspectNS c s).2 = { s with calls := s.calls ++ [ApiCall.createNamespace inspectNS] } := by
  unfold ensureInspectNS
  cases c.createNamespace with
  | none => rfl
  | some err => by_cases h : err.alreadyExists = true <;> simp [h]

/-- A request of a pool task is neither the namespace poll nor the namespace
deletion. -/
theorem count_of_taskCalls (extra : List ApiCall) (h : ∀ x ∈ extra, taskCall x = true)
    (y : ApiCall) (hy : taskCall y = false) : extra.count y = 0 := by
  rw [List.count_eq_zero]
  intro hmem
  have := h y hmem
  rw [hy] at this
  exact Bool.noConfusion this

end pressure

/-- C12 (amended): with no interrupt signal received, the draining path of the
shutdown handler is entered exactly when `Run` completes normally, and then
exactly once, at the end of the run, released by the `cancel()` of `Run`:
after all tasks it sends one pod deletion per listed node, runs the poll of
the namespace and, when the poll succeeds, deletes the namespace.  When `Run`
returns an error the draining path is not entered: after a failed node
discovery the listing is the only request sent, after a failed namespace
creation the listing and the creation are, after a failed printing the state
is the one the tasks left; in all three no namespace poll and no namespace
deletion is sent. -/
theorem C12_normal_run_ends_with_cleanup (c : Cluster) (s : Scanner) (target : String) :
    (∀ e s1, listNodes c s target = (.error e, s1) →
      Run c s target = (some ("failed to get nodes: " ++ e), s1, []) ∧
      s1.calls = s.calls ++ [ApiCall.listNodes]) ∧
    (∀ nodes s1 e s2, listNodes c s target = (.ok nodes, s1) →
      ensureInspectNS c s1 = (some e, s2) →
      Run c s target = (some e, s2, []) ∧
      s2.calls = s.calls ++ [ApiCall.listNodes, ApiCall.createNamespace inspectNS]) ∧
    (∀ nodes s1 s2 e, listNodes c s target = (.ok nodes, s1) →
      ensureInspectNS c s1 = (none, s2) → c.flushErr = some e →
      (Run c s target).1 =
        some ("failed to print results: " ++ ("failed to flush tab writer: " ++ e)) ∧
      (Run c s target).2.1 = runTasks c s2 nodes) ∧
    (∀ nodes s1 s2, listNodes c s target = (.ok nodes, s1) →
      ensureInspectNS c s1 = (none, s2) → c.flushErr = none →
      (Run c s target).1 = none ∧
      (Run c s target).2.1.nodes = (runTasks c s2 nodes).nodes ∧
      (Run c s target).2.1.calls =
        (runTasks c s2 nodes).calls ++
          (nodes.map fun nd => ApiCall.deletePod (podNamePrefix ++ "-" ++ nd.Name)) ++
          [ApiCall.waitPodsGone inspectNS] ++
          (if c.waitPodsGone = none then [ApiCall.deleteNamespace inspectNS] else [])) ∧
    ∃ extra, (Run c s target).2.1.calls = s.calls ++ extra ∧
      extra.count (ApiCall.waitPodsGone inspectNS) =
        (if (Run c s target).1 = none then 1 else 0) ∧
      extra.count (ApiCall.deleteNamespace inspectNS) =
        (if (Run c s target).1 = none ∧ c.waitPodsGone = none then 1 else 0) := by
  have hA : ∀ e s1, listNodes c s target = (.error e, s1) →
      Run c s target = (some ("failed to get nodes: " ++ e), s1, []) := by
    intro e s1 hl
    unfold Run; rw [hl]
  have hB : ∀ nodes s1 e s2, listNodes c s target = (.ok nodes, s1) →
      ensureInspectNS c s1 = (some e, s2) → Run c s target = (some e, s2, []) := by
    intro nodes s1 e s2 hl hn
    unfold Run; rw [hl]; simp only [hn]
  have hC : ∀ nodes s1 s2 e, listNodes c s target = (.ok nodes, s1) →
      ensureInspectNS c s1 = (none, s2) → c.flushErr = some e →
      Run c s target =
        (some ("failed to print results: " ++ ("failed to flush tab writer: " ++ e)),
          runTasks c s2 nodes, (printResult c (runTasks c s2 nodes)).2) := by
    intro nodes s1 s2 e hl hn hf
    unfold Run; rw [hl]; simp only [hn]
    unfold printResult
    simp only [hf]
  have hD : ∀ nodes s1 s2, listNodes c s target = (.ok nodes, s1) →
      ensureInspectNS c s1 = (none, s2) → c.flushErr = none →
      Run c s target =
        (none, startShutdownHandler c (runTasks c s2 nodes) nodes,
          (printResult c (runTasks c s2 nodes)).2) := by
    intro nodes s1 s2 hl hn hf
    unfold Run; rw [hl]; simp only [hn]
    unfold printResult
    simp only [hf]
  have hls := listNodes_state c s target
  refine ⟨?_, ?_, ?_, ?_, ?_⟩
  · intro e s1 hl
    refine ⟨hA e s1 hl, ?_⟩
    rw [hl] at hls; simp only at hls; rw [hls]
  · intro nodes s1 e s2 hl hn
    refine ⟨hB nodes s1 e s2 hl hn, ?_⟩
    have hns := ensureInspectNS_state c s1
    rw [hl] at hls; simp only at hls
    rw [hn] at hns; simp only at hns
    rw [hns, hls]; simp
  · intro nodes s1 s2 e hl hn hf
    rw [hC nodes s1 s2 e hl hn hf]
    exact ⟨rfl, rfl⟩
  · intro nodes s1 s2 hl hn hf
    rw [hD nodes s1 s2 hl hn hf, startShutdownHandler_calls]
    exact ⟨rfl, rfl, rfl⟩
  · rcases hl : listNodes c s target with ⟨r, s1⟩
    rw [hl] at hls; simp only at hls
    cases r with
    | error e =>
      rw [hA e s1 hl]
      refine ⟨[ApiCall.listNodes], by rw [hls], ?_, ?_⟩ <;> simp
    | ok nodes =>
      have hns := ensureInspectNS_state c s1
      rcases hn : ensureInspectNS c s1 with ⟨eo, s2⟩
      rw [hn] at hns; simp only at hns
      cases eo with
      | some e =>
        rw [hB nodes s1 e s2 hl hn]
        refine ⟨[ApiCall.listNodes, ApiCall.createNamespace inspectNS],
          by rw [hns, hls]; simp, ?_, ?_⟩ <;> simp
      | none =>
        obtain ⟨tx, htx, htask⟩ := runTasks_ext c nodes s2
        have hw0 := count_of_taskCalls tx htask (ApiCall.waitPodsGone inspectNS) rfl
        have hd0 := count_of_taskCalls tx htask (ApiCall.deleteNamespace inspectNS) rfl
        have hs2 : s2.calls = s.calls ++ [ApiCall.listNodes, ApiCall.createNamespace inspectNS] := by
          rw [hns, hls]; simp
        cases hf : c.flushErr with
        | some e =>
          rw [hC nodes s1 s2 e hl hn hf]
          refine ⟨[ApiCall.listNodes, ApiCall.createNamespace inspectNS] ++ tx,
            by simp only [htx, hs2, List.append_assoc], ?_, ?_⟩
          · simp [List.count_append, hw0]
          · simp [List.count_append, hd0]
        | none =>
          rw [hD nodes s1 s2 hl hn hf, startShutdownHandler_calls]
          have hdel : ∀ y, taskCall y = false →
              (nodes.map fun nd => ApiCall.deletePod (podNamePrefix ++ "-" ++ nd.Name)).count y
                = 0 := by
            intro y hy
            apply count_of_taskCalls _ _ y hy
            intro x hx
            obtain ⟨nd, _, rfl⟩ := List.mem_map.1 hx
            rfl
          refine ⟨[ApiCall.listNodes, ApiCall.createNamespace inspectNS] ++ tx ++
              (nodes.map fun nd => ApiCall.deletePod (podNamePrefix ++ "-" ++ nd.Name)) ++
              [ApiCall.waitPodsGone inspectNS] ++
              (if c.waitPodsGone = none then [ApiCall.deleteNamespace inspectNS] else []),
            by simp only [htx, hs2, List.append_assoc], ?_, ?_⟩
          · have h1 := hdel (ApiCall.waitPodsGone inspectNS) rfl
            simp only [List.count_append, hw0, h1]
            by_cases hw : c.waitPodsGone = none <;> simp [hw]
          · have h1 := hdel (ApiCall.deleteNamespace inspectNS) rfl
            simp only [List.count_append, hd0, h1]
            by_cases hw : c.waitPodsGone = none <;> simp [hw]

/-- Witness of C12 (amended): a run over the single node `n1`. -/
theorem C12_normal_run_ends_with_cleanup_witness :
    (Run (clusterWith fun _ _ => .error "command terminated with exit code 1")
        emptyScanner "").1 = none ∧
    (Run (clusterWith fun _ _ => .error "command terminated with exit code 1")
        emptyScanner "").2.1.calls =
      (runTasks (clusterWith fun _ _ => .error "command terminated with exit code 1")
          { nodes := [], calls := [ApiCall.listNodes, ApiCall.createNamespace "bpf-inspect"] }
          [{ Name := "n1" }]).calls ++
        [ApiCall.deletePod "bpf-inspector-n1", ApiCall.waitPodsGone "bpf-inspect",
         ApiCall.deleteNamespace "bpf-inspect"] := by
  have h := (C12_normal_run_ends_with_cleanup
    (clusterWith fun _ _ => .error "command terminated with exit code 1")
    emptyScanner "").2.2.2.1 [{ Name := "n1" }] { nodes := [], calls := [ApiCall.listNodes] }
    { nodes := [], calls := [ApiCall.listNodes, ApiCall.createNamespace "bpf-inspect"] }
    (by decide) (by decide) (by decide)
  refine ⟨h.1, ?_⟩
  rw [h.2.2]
  decide

end C12

/-! ## C13: a map at or over its capacity -/

/-- The rounded mantissa, put back at its place, exceeds the exact value by at
most one part in `2^52`. -/
theorem round53_upper (m : Nat) :
    2 ^ 52 * ((round53 m).1 * 2 ^ (round53 m).2) ≤ (2 ^ 52 + 1) * m := by
  rcases round53_cases m with ⟨_, h⟩ | ⟨hlt, h⟩
  · rw [h]; simp only [pow_zero, mul_one]; nlinarith
  · have hm0 : m ≠ 0 := by
      rintro rfl
      simp [bitLen, bitLenAux] at hlt
    obtain ⟨s, hs⟩ : ∃ s, bitLen m - 53 = s := ⟨_, rfl⟩
    have hself := bitLen_le_self m hm0
    have hexp : bitLen m - 1 = s + 52 := by omega
    rw [hexp, pow_add] at hself
    have hdiv : m / 2 ^ s * 2 ^ s ≤ m := Nat.div_mul_le_self m (2 ^ s)
    rw [hs] at h
    have hval : (round53 m).1 * 2 ^ (round53 m).2 ≤ m + 2 ^ s := by
      rcases h with h | h <;> rw [h] <;> simp only
      · omega
      · rw [Nat.add_mul, one_mul]; omega
    calc 2 ^ 52 * ((round53 m).1 * 2 ^ (round53 m).2)
        ≤ 2 ^ 52 * (m + 2 ^ s) := Nat.mul_le_mul_left _ hval
      _ = 2 ^ 52 * m + 2 ^ s * 2 ^ 52 := by ring
      _ ≤ 2 ^ 52 * m + m := by omega
      _ = (2 ^ 52 + 1) * m := by ring

/-- The integer part of a non-negative float64 `q * 2^e` is at most `C`
whenever the value is. -/
theorem toInt_le_of_value_le (q : Nat) (e : Int) (a b C : Nat) (he : e = (a : Int) - (b : Int))
    (h : q * 2 ^ a ≤ C * 2 ^ b) : Float64.toInt (.fin false q e) ≤ (C : Int) := by
  subst he
  have key : ∀ v : Nat, v ≤ C →
      (if v < 2 ^ 63 then (if false = true then -(v : Int) else (v : Int)) else -(2 ^ 63)) ≤
        (C : Int) := by
    intro v hv
    by_cases hlt : v < 2 ^ 63
    · simp only [hlt, if_true, Bool.false_eq_true, if_false]
      exact_mod_cast hv
    · simp only [hlt, if_false]
      have : (0 : Int) ≤ (C : Int) := Int.ofNat_nonneg C
      omega
  unfold Float64.toInt
  by_cases hab : (0 : Int) ≤ (a : Int) - (b : Int)
  · simp only [hab, if_true]
    apply key
    have hba : b ≤ a := by omega
    have htn : ((a : Int) - (b : Int)).toNat = a - b := by omega
    rw [htn]
    have h2 : 2 ^ a = 2 ^ (a - b) * 2 ^ b := by rw [← pow_add]; congr 1; omega
    rw [h2, ← mul_assoc] at h
    exact Nat.le_of_mul_le_mul_right h (by positivity)
  · simp only [hab, if_false]
    apply key
    have hba : a < b := by omega
    have htn : (-((a : Int) - (b : Int))).toNat = b - a := by omega
    rw [htn]
    have h2 : 2 ^ b = 2 ^ (b - a) * 2 ^ a := by rw [← pow_add]; congr 1; omega
    rw [h2, ← mul_assoc] at h
    have h3 := Nat.le_of_mul_le_mul_right h (by positivity)
    apply Nat.div_le_of_le_mul
    rw [Nat.mul_comm]; exact h3

/-- The warning threshold of a capacity never exceeds the capacity. -/
theorem threshold_le_capacity (C : Nat) :
    Float64.toInt (Float64.mul (Float64.ofInt (C : Int)) const_0_8) ≤ (C : Int) := by
  have h1 := round53_upper C
  have h2 := round53_upper ((round53 C).1 * 3602879701896397)
  have hof : Float64.ofInt (C : Int) = .fin false (round53 C).1 (0 + ((round53 C).2 : Int)) := by
    simp [Float64.ofInt, Float64.round]
  rw [hof]
  simp only [const_0_8, Float64.mul, Float64.round, Bool.xor_false]
  set q1 := (round53 C).1
  set s1 := (round53 C).2
  set q2 := (round53 (q1 * 3602879701896397)).1
  set s2 := (round53 (q1 * 3602879701896397)).2
  apply toInt_le_of_value_le q2 _ (s1 + s2) 52 C (by push_cast; ring)
  -- 2^52 * (q2 * 2^s2) ≤ (2^52+1) * q1 * m08 ; 2^52 * (q1 * 2^s1) ≤ (2^52+1) * C
  have h3 : 2 ^ 52 * (q2 * 2 ^ s2) * (2 ^ 52 * 2 ^ s1) ≤
      (2 ^ 52 + 1) * (q1 * 3602879701896397) * (2 ^ 52 * 2 ^ s1) :=
    Nat.mul_le_mul_right _ h2
  have h4 : (2 ^ 52 + 1) * 3602879701896397 * (2 ^ 52 * (q1 * 2 ^ s1)) ≤
      (2 ^ 52 + 1) * 3602879701896397 * ((2 ^ 52 + 1) * C) :=
    Nat.mul_le_mul_left _ h1
  have h5 : (2 ^ 52 + 1) * 3602879701896397 * ((2 ^ 52 + 1) * C) ≤ 2 ^ 104 * (C * 2 ^ 52) := by
    have : (2 ^ 52 + 1) * 3602879701896397 * (2 ^ 52 + 1) ≤ 2 ^ 104 * 2 ^ 52 := by norm_num
    calc (2 ^ 52 + 1) * 3602879701896397 * ((2 ^ 52 + 1) * C)
        = (2 ^ 52 + 1) * 3602879701896397 * (2 ^ 52 + 1) * C := by ring
      _ ≤ 2 ^ 104 * 2 ^ 52 * C := Nat.mul_le_mul_right _ this
      _ = 2 ^ 104 * (C * 2 ^ 52) := by ring
  have h6 : 2 ^ 104 * (q2 * 2 ^ (s1 + s2)) ≤ 2 ^ 104 * (C * 2 ^ 52) := by
    calc 2 ^ 104 * (q2 * 2 ^ (s1 + s2))
        = 2 ^ 52 * (q2 * 2 ^ s2) * (2 ^ 52 * 2 ^ s1) := by rw [pow_add]; ring
      _ ≤ (2 ^ 52 + 1) * (q1 * 3602879701896397) * (2 ^ 52 * 2 ^ s1) := h3
      _ = (2 ^ 52 + 1) * 3602879701896397 * (2 ^ 52 * (q1 * 2 ^ s1)) := by ring
      _ ≤ _ := h4
      _ ≤ _ := h5
  exact Nat.le_of_mul_le_mul_left h6 (by positivity)

/-- C13: for every capacity `C >= 0` and every current count `N >= C` that the
probes return, `getBpfMapStats` computes status Warning and `processPod` files
the pod in the warning group; and the classification is monotone in the
count: if count `N` is Warning for capacity `C`, so is every `N2 >= N`. -/
theorem C13_full_map_is_warning
    (c : pressure.Cluster) (s s2 : pressure.Scanner) (pod pod2 : pressure.Pod) (m m2 : String)
    (env : scanner.Env) (t t2 : scanner.Scanner) (p p2 : scanner.Pod)
    (oC oN oN2 : String) (C N N2 : Int)
    (h1 : c.exec pod.Name (pressure.maxEntriesCmd m) = .ok oC)
    (h2 : c.exec pod.Name (pressure.currentEntriesCmd m) = .ok oN)
    (h3 : c.exec pod2.Name (pressure.maxEntriesCmd m2) = .ok oC)
    (h4 : c.exec pod2.Name (pressure.currentEntriesCmd m2) = .ok oN2)
    (h5 : env.exec p.Name scanner.maxCntCmd = .ok oC)
    (h6 : env.exec p.Name scanner.currentCntCmd = .ok oN)
    (h7 : env.exec p2.Name scanner.maxCntCmd = .ok oC)
    (h8 : env.exec p2.Name scanner.currentCntCmd = .ok oN2)
    (hC : atoi (trimSpace oC) = .ok C) (hN : atoi (trimSpace oN) = .ok N)
    (hN2 : atoi (trimSpace oN2) = .ok N2) :
    (0 ≤ C → C ≤ N →
      (∃ b s1, pressure.getBpfMapStats c s pod m = (.ok b, s1) ∧
        b.maxEntries = C ∧ b.currentEntries = N ∧ b.status = pressure.bpfMapStatus.Warning) ∧
      scanner.processPod env t p =
        (none, { t with warningNodes := t.warningNodes ++ [scanner.measuredRow p C N] })) ∧
    (N ≤ N2 →
      (∃ b s1, pressure.getBpfMapStats c s pod m = (.ok b, s1) ∧
        b.status = pressure.bpfMapStatus.Warning) →
      ∃ b s1, pressure.getBpfMapStats c s2 pod2 m2 = (.ok b, s1) ∧
        b.maxEntries = C ∧ b.currentEntries = N2 ∧ b.status = pressure.bpfMapStatus.Warning) ∧
    (N ≤ N2 →
      scanner.processPod env t p =
        (none, { t with warningNodes := t.warningNodes ++ [scanner.measuredRow p C N] }) →
      scanner.processPod env t2 p2 =
        (none, { t2 with warningNodes := t2.warningNodes ++ [scanner.measuredRow p2 C N2] })) := by
  obtain ⟨T, hT⟩ : ∃ T, Float64.toInt (Float64.mul (Float64.ofInt C) const_0_8) = T := ⟨_, rfl⟩
  have hp : ∀ (s0 : pressure.Scanner), ∃ s1, pressure.getBpfMapStats c s0 pod m =
      (.ok { name := "", maxEntries := C, currentEntries := N,
             usage := Float64.mul (Float64.div (Float64.ofInt N) (Float64.ofInt C)) const_100,
             status := if N ≥ T then pressure.bpfMapStatus.Warning else pressure.bpfMapStatus.OK,
             errMsg := "" }, s1) := by
    intro s0
    simp only [pressure.getBpfMapStats, pressure.execCmd, h1, h2, hC, hN, hT]
    exact ⟨_, rfl⟩
  have hp2 : ∀ (s0 : pressure.Scanner), ∃ s1, pressure.getBpfMapStats c s0 pod2 m2 =
      (.ok { name := "", maxEntries := C, currentEntries := N2,
             usage := Float64.mul (Float64.div (Float64.ofInt N2) (Float64.ofInt C)) const_100,
             status := if N2 ≥ T then pressure.bpfMapStatus.Warning else pressure.bpfMapStatus.OK,
             errMsg := "" }, s1) := by
    intro s0
    simp only [pressure.getBpfMapStats, pressure.execCmd, h3, h4, hC, hN2, hT]
    exact ⟨_, rfl⟩
  have hs : ∀ t0 : scanner.Scanner, scanner.processPod env t0 p =
      (none, if N ≥ T then
        { t0 with warningNodes := t0.warningNodes ++ [scanner.measuredRow p C N] }
      else { t0 with normalNodes := t0.normalNodes ++ [scanner.measuredRow p C N] }) := by
    intro t0
    simp only [scanner.processPod, scanner.processPodBody, scanner.execCmd, h5, h6, hC, hN, hT]
    by_cases h : N ≥ T <;> simp [h]
  have hs2 : ∀ t0 : scanner.Scanner, scanner.processPod env t0 p2 =
      (none, if N2 ≥ T then
        { t0 with warningNodes := t0.warningNodes ++ [scanner.measuredRow p2 C N2] }
      else { t0 with normalNodes := t0.normalNodes ++ [scanner.measuredRow p2 C N2] }) := by
    intro t0
    simp only [scanner.processPod, scanner.processPodBody, scanner.execCmd, h7, h8, hC, hN2, hT]
    by_cases h : N2 ≥ T <;> simp [h]
  refine ⟨?_, ?_, ?_⟩
  · intro h0 hCN
    have hTC : T ≤ C := by
      obtain ⟨n, rfl⟩ := Int.eq_ofNat_of_zero_le h0
      rw [← hT]
      exact threshold_le_capacity n
    have hNT : N ≥ T := le_trans hTC hCN
    obtain ⟨s1, hb⟩ := hp s
    refine ⟨⟨_, s1, hb, rfl, rfl, by simp [hNT]⟩, ?_⟩
    rw [hs t, if_pos hNT]
  · intro hNN hw
    obtain ⟨s1, hb⟩ := hp s
    obtain ⟨b, s1', hb', hst⟩ := hw
    rw [hb] at hb'
    have hNT : N ≥ T := by
      by_contra hcon
      have hbb := (Prod.mk.inj hb').1
      have := Except.ok.inj hbb
      rw [← this] at hst
      simp [hcon] at hst
    have hN2T : N2 ≥ T := le_trans hNT hNN
    obtain ⟨s3, hb3⟩ := hp2 s2
    exact ⟨_, s3, hb3, rfl, rfl, by simp [hN2T]⟩
  · intro hNN hw
    rw [hs t] at hw
    have hNT : N ≥ T := by
      by_contra hcon
      rw [if_neg hcon] at hw
      have h' := (Prod.mk.inj hw).2
      have h'' := congrArg (fun x => x.warningNodes.length) h'
      simp at h''
    have hN2T : N2 ≥ T := le_trans hNT hNN
    rw [hs2 t2, if_pos hN2T]

/-- Witness of C13: capacity 1000 with counts 1000 and 1200. -/
theorem C13_full_map_is_warning_witness :
    ((∃ b s1,
        pressure.getBpfMapStats
          (pressure.clusterWith fun _ cmd =>
            if cmd = pressure.currentEntriesCmd "cilium_ct6_global" then .ok "1200"
            else .ok "1000")
          pressure.emptyScanner pressure.podN1 "cilium_ct4_global" = (.ok b, s1) ∧
        b.maxEntries = 1000 ∧ b.currentEntries = 1000 ∧
        b.status = pressure.bpfMapStatus.Warning) ∧
      scanner.processPod
          { exec := fun pod cmd =>
              if cmd = scanner.maxCntCmd then .ok "1000"
              else if pod = "cilium-abcde" then .ok "1000" else .ok "1200",
            flushErr := none }
          scanner.emptyScanner scanner.agentPod =
        (none, { scanner.emptyScanner with
          warningNodes := [scanner.measuredRow scanner.agentPod 1000 1000] })) ∧
    (∃ b s1,
        pressure.getBpfMapStats
          (pressure.clusterWith fun _ cmd =>
            if cmd = pressure.currentEntriesCmd "cilium_ct6_global" then .ok "1200"
            else .ok "1000")
          pressure.emptyScanner pressure.podN1 "cilium_ct6_global" = (.ok b, s1) ∧
        b.maxEntries = 1000 ∧ b.currentEntries = 1200 ∧
        b.status = pressure.bpfMapStatus.Warning) ∧
    scanner.processPod
        { exec := fun pod cmd =>
            if cmd = scanner.maxCntCmd then .ok "1000"
            else if pod = "cilium-abcde" then .ok "1000" else .ok "1200",
          flushErr := none }
        scanner.emptyScanner { Name := "cilium-fghij", NodeName := "n2" } =
      (none, { scanner.emptyScanner with
        warningNodes :=
          [scanner.measuredRow { Name := "cilium-fghij", NodeName := "n2" } 1000 1200] }) := by
  have h := C13_full_map_is_warning
    (pressure.clusterWith fun _ cmd =>
      if cmd = pressure.currentEntriesCmd "cilium_ct6_global" then .ok "1200" else .ok "1000")
    pressure.emptyScanner pressure.emptyScanner pressure.podN1 pressure.podN1
    "cilium_ct4_global" "cilium_ct6_global"
    { exec := fun pod cmd =>
        if cmd = scanner.maxCntCmd then .ok "1000"
        else if pod = "cilium-abcde" then .ok "1000" else .ok "1200",
      flushErr := none }
    scanner.emptyScanner scanner.emptyScanner scanner.agentPod
    { Name := "cilium-fghij", NodeName := "n2" }
    "1000" "1000" "1200" 1000 1000 1200
    (by decide) (by decide) (by decide) (by decide) (by decide) (by decide) (by decide)
    (by decide) (by decide) (by decide) (by decide)
  obtain ⟨ha, hb, hc⟩ := h
  have ha' := ha (by decide) (by decide)
  exact ⟨ha', hb (by decide) (by
      obtain ⟨b, s1, h1, _, _, h4⟩ := ha'.1
      exact ⟨b, s1, h1, h4⟩), hc (by decide) ha'.2⟩
